import Mathlib

/-!
Shallow embedding of the backtest core of the BTCUSDT strategy repository:
`src/strategy_v5.py` (signal construction, position sizing, the tighten
decision) and `src/backtest_engine.py` (`run_backtest`, the bar-by-bar state
machine).  Prices and quantities are modelled by `ℚ`; `NaN`-carrying rows of
the pandas frame are modelled by a per-row `isna` flag (rows with it set are
removed by the `dropna` step, exactly as in the source).  The external
cancellation predicate (`stop_flag`, a stateful nullary callback in Python) is
determinized as a function of the bar index: `flag i` is the value the
callback returns when polled at the top of bar `i`.
-/

namespace BT

/-- One row of the signal frame: raw OHLCV columns plus the derived indicator
columns that `run_backtest` and `build_signals` read.  `isna` models "this row
contains a NaN in some required column" (such rows are dropped by
`df.dropna()` before simulation).  `adx_f` / `ema_fast_f` are the
filter-timeframe columns used by the bear gate.  The boolean signal columns
are overwritten by `build_signals`. -/
structure Bar where
  open_time : Int
  opn : ℚ
  high : ℚ
  low : ℚ
  close : ℚ
  volume : ℚ
  close_time : Int
  rsi : ℚ
  macd_hist : ℚ
  ema_fast : ℚ
  ema_slow : ℚ
  boll_mid : ℚ
  boll_upper : ℚ
  boll_lower : ℚ
  adx : ℚ
  atr : ℚ
  adx_f : ℚ
  ema_fast_f : ℚ
  isna : Bool := false
  long_signal : Bool := false
  short_signal : Bool := false
  touch_long : Bool := false
  touch_short : Bool := false
deriving Repr, DecidableEq

/-- `strategy_v5.build_signals` with `params = None` (as `run_backtest` calls
it): `long_signal = long_candidate`, `short_signal = short_candidate`, plus
the Bollinger-touch columns. -/
def build_signals (b : Bar) : Bar :=
  { b with
    long_signal := decide (50 < b.rsi) && decide (0 < b.macd_hist) &&
      decide (b.ema_fast < b.close) && decide (b.ema_slow < b.ema_fast) &&
      decide (b.boll_mid < b.close)
    short_signal := decide (b.rsi < 50) && decide (b.macd_hist < 0) &&
      decide (b.close < b.ema_fast) && decide (b.ema_fast < b.ema_slow) &&
      decide (b.close < b.boll_mid)
    touch_long := decide (b.low ≤ b.boll_lower)
    touch_short := decide (b.boll_upper ≤ b.high) }

/-- `strategy_v5.calculate_position_size`. -/
def calculate_position_size (equity risk_pct entry_price stop_price : ℚ)
    (max_notional_pct : Option ℚ) : ℚ :=
  if entry_price ≤ 0 then 0
  else
    let stop_distance := |entry_price - stop_price|
    if stop_distance ≤ 0 then 0
    else
      let risk_amt := equity * risk_pct
      let qty := risk_amt / stop_distance
      let qty := match max_notional_pct with
        | some m => min qty (equity * m / entry_price)
        | none => qty
      max qty 0

/-- `strategy_v5.tp2_invalid_should_tighten`. -/
def tp2_invalid_should_tighten (pnl_pct : ℚ) (hold_bars : Int)
    (min_pnl_pct : ℚ) (min_hold_bars : Int) : Bool × String :=
  if pnl_pct ≤ 0 then (false, "loss")
  else if pnl_pct < min_pnl_pct then (false, "profit_gate")
  else if hold_bars < min_hold_bars then (false, "hold_gate")
  else (true, "allow")

/-- The `config["v5"]` strategy-parameter group read by `run_backtest`.
`tp2_invalid_action` models `v5.get("tp2_invalid_action", "tighten_stop")`:
the field holds the value after applying the dict default. -/
structure V5Config where
  ema_slope_lookback : Nat
  bear_adx_threshold : ℚ
  atr_trail_mult : ℚ
  atr_init_mult : ℚ
  tp2_invalid_min_pnl_pct_long : ℚ
  tp2_invalid_min_pnl_pct_short : ℚ
  tp2_invalid_min_hold_bars : Int
  tighten_to : String
  tp2_invalid_action : String := "tighten_stop"
deriving Repr, DecidableEq

/-- The `config["risk"]` group. -/
structure RiskConfig where
  risk_per_trade_long : ℚ
  risk_per_trade_short : ℚ
  max_notional_pct_short : ℚ
deriving Repr, DecidableEq

/-- The engine configuration read by `run_backtest`. -/
structure Config where
  v5 : V5Config
  risk : RiskConfig
  fee_rate : ℚ
  slippage_rate : ℚ
  initial_capital : ℚ
  trade_mode : String := "both"
deriving Repr, DecidableEq

/-- The `Position` dataclass of `backtest_engine.py`. -/
structure Position where
  side : String
  entry_price : ℚ
  qty : ℚ
  stop_price : ℚ
  entry_time : Int
  hold_bars : Nat := 0
  tp2_tightened : Bool := false
  pending_stop : Option ℚ := none
deriving Repr, DecidableEq

/-- One record of the `trades` list appended on a stop exit. -/
structure Trade where
  entry_time : Int
  exit_time : Int
  side : String
  entry_price : ℚ
  exit_price : ℚ
  qty : ℚ
  pnl : ℚ
  reason : String
  stop_type : String
  hold_bars : Nat
deriving Repr, DecidableEq

/-- One record of the `equity_curve` list (one per simulated bar). -/
structure EquityPoint where
  open_time : Int
  equity : ℚ
deriving Repr, DecidableEq

/-- The diagnostic counters dictionary, with one field per key. -/
structure Counters where
  d_allow_long_bars : Nat := 0
  d_allow_short_bars : Nat := 0
  d_range_blocked_bars : Nat := 0
  h_touch_long_events : Nat := 0
  h_touch_short_events : Nat := 0
  entries_long : Nat := 0
  entries_short : Nat := 0
  entries_total : Nat := 0
  candidates_long : Nat := 0
  candidates_short : Nat := 0
  tp2_invalid_blocked_by_loss : Nat := 0
  tp2_invalid_blocked_by_hold : Nat := 0
  tp2_invalid_blocked_by_profit_gate : Nat := 0
  tp2_invalid_tighten_count : Nat := 0
  tp2_invalid_triggered_exit_count : Nat := 0
  beargate_pass : Nat := 0
  beargate_fail : Nat := 0
  beargate_short_blocked : Nat := 0
deriving Repr, DecidableEq

def init_counters : Counters := {}

/-- The loop state of `run_backtest`: cash, the (at most one) open position,
and the accumulated outputs. -/
structure EngState where
  cash : ℚ
  position : Option Position
  trades : List Trade
  equity_curve : List EquityPoint
  counters : Counters
deriving Repr, DecidableEq

/-- The third component of `run_backtest`'s return value: either the
`{"error": ...}` dictionary of the no-data path or the `{"counters": ...}`
dictionary of the normal path. -/
inductive RunMeta where
  | err (msg : String)
  | ok (counters : Counters)
deriving Repr, DecidableEq

/-- The full return value of `run_backtest`. -/
structure BacktestResult where
  trades : List Trade
  equity_curve : List EquityPoint
  meta : RunMeta
deriving Repr, DecidableEq

/-- `range_filter = df["adx"] < 15`, evaluated at one row. -/
def range_filter (b : Bar) : Bool := decide (b.adx < 15)

/-- The `bear_pass` series of `run_backtest` evaluated at index `i` of the
(already filtered) frame.  `hasF` models the column-presence test
`"adx_f" in df.columns and "ema_fast_f" in df.columns`; the `shift`-induced
NaN for the first `ema_slope_lookback` rows makes the comparison false
there, modelled by the index guard. -/
def bear_pass (cfg : Config) (hasF : Bool) (df : List Bar) (i : Nat) : Bool :=
  if hasF then
    match df.get? i,
      (if cfg.v5.ema_slope_lookback ≤ i then df.get? (i - cfg.v5.ema_slope_lookback) else none) with
    | some b, some bp =>
        decide (cfg.v5.bear_adx_threshold ≤ b.adx_f) &&
          decide (b.ema_fast_f - bp.ema_fast_f < 0)
    | _, _ => false
  else false

/-- `df.loc[max(0, i - 4) : i]`: the inclusive five-bar window ending at `i`
(pandas `.loc` slicing is inclusive on both ends). -/
def entry_window (df : List Bar) (i : Nat) : List Bar :=
  (df.drop (i - 4)).take (i - (i - 4) + 1)

/-- `df.loc[max(0, i - 4) : i, "low"].min()`. -/
def recent_low (df : List Bar) (i : Nat) : ℚ :=
  match entry_window df i with
  | [] => 0
  | b :: bs => bs.foldl (fun m x => min m x.low) b.low

/-- `df.loc[max(0, i - 4) : i, "high"].max()`. -/
def recent_high (df : List Bar) (i : Nat) : ℚ :=
  match entry_window df i with
  | [] => 0
  | b :: bs => bs.foldl (fun m x => max m x.high) b.high

/-- `df.iloc[i - 1] if i > 0 else None`. -/
def prev_bar (df : List Bar) (i : Nat) : Option Bar :=
  if 0 < i then df.get? (i - 1) else none

/-- Commit a staged `pending_stop` as the active stop (start of the
position-bookkeeping step). -/
def commit_pending (p : Position) : Position :=
  match p.pending_stop with
  | some ps => { p with stop_price := ps, pending_stop := none }
  | none => p

/-- The trailing-stop update from the previous bar's close and ATR: adopt the
candidate only if it improves the stop (raises for LONG, lowers otherwise).
The `isna` guard models `pd.notna(prev_row["atr"])` (post-`dropna` frames
never set it). -/
def apply_trail (cfg : Config) (prev? : Option Bar) (p : Position) : Position :=
  match prev? with
  | some prev =>
      if prev.isna then p
      else if p.side = "LONG" then
        let trail := prev.close - prev.atr * cfg.v5.atr_trail_mult
        if p.stop_price < trail then { p with stop_price := trail } else p
      else
        let trail := prev.close + prev.atr * cfg.v5.atr_trail_mult
        if trail < p.stop_price then { p with stop_price := trail } else p
  | none => p

/-- Position bookkeeping at the top of a bar: increment `hold_bars`, commit a
pending stop, then apply the trailing update (lines 100-113 of
`backtest_engine.py`, in source order). -/
def pos_update (cfg : Config) (prev? : Option Bar) (p : Position) : Position :=
  apply_trail cfg prev? (commit_pending { p with hold_bars := p.hold_bars + 1 })

/-- The stop-breach test: LONG exits when `low ≤ stop`, SHORT when
`high ≥ stop`. -/
def stop_hit (row : Bar) (p : Position) : Bool :=
  if p.side = "LONG" then decide (row.low ≤ p.stop_price)
  else if p.side = "SHORT" then decide (p.stop_price ≤ row.high)
  else false

/-- Result of the bookkeeping-and-exit phase. -/
structure ExitOut where
  cash : ℚ
  pos : Option Position
  trade : Option Trade
deriving Repr, DecidableEq

/-- The stop-exit check and fill (lines 115-151): fill at the stop adjusted by
slippage against the position, net a proportional fee on the exit notional,
and label the trade purely from the sign of the realized pnl. -/
def exit_step (cfg : Config) (row : Bar) (cash : ℚ) (p : Position) : ExitOut :=
  if stop_hit row p then
    let exit_price := if p.side = "LONG" then p.stop_price * (1 - cfg.slippage_rate)
      else p.stop_price * (1 + cfg.slippage_rate)
    let pnl := if p.side = "LONG" then (exit_price - p.entry_price) * p.qty
      else (p.entry_price - exit_price) * p.qty
    let fee := exit_price * p.qty * cfg.fee_rate
    let realized := pnl - fee
    let t : Trade :=
      { entry_time := p.entry_time
        exit_time := row.open_time
        side := p.side
        entry_price := p.entry_price
        exit_price := exit_price
        qty := p.qty
        pnl := realized
        reason := if 0 < realized then "TrailStop" else "Stop"
        stop_type := if 0 < realized then "profit_stop" else "loss_stop"
        hold_bars := p.hold_bars }
    { cash := cash + realized, pos := none, trade := some t }
  else { cash := cash, pos := some p, trade := none }

def allow_long (cfg : Config) : Bool :=
  decide (cfg.trade_mode = "both" ∨ cfg.trade_mode = "long_only")

def allow_short (cfg : Config) : Bool :=
  decide (cfg.trade_mode = "both" ∨ cfg.trade_mode = "short_only")

/-- Long-entry arithmetic (lines 157-168): entry price, stop price, quantity. -/
def long_entry_calc (cfg : Config) (df : List Bar) (i : Nat) (row : Bar)
    (cash : ℚ) : ℚ × ℚ × ℚ :=
  let entry_price := row.close * (1 + cfg.slippage_rate)
  let atr_stop := entry_price - row.atr * cfg.v5.atr_init_mult
  let stop_price := max atr_stop (recent_low df i)
  let qty := calculate_position_size cash cfg.risk.risk_per_trade_long
    entry_price stop_price none
  (entry_price, stop_price, qty)

/-- Short-entry arithmetic (lines 188-199). -/
def short_entry_calc (cfg : Config) (df : List Bar) (i : Nat) (row : Bar)
    (cash : ℚ) : ℚ × ℚ × ℚ :=
  let entry_price := row.close * (1 - cfg.slippage_rate)
  let atr_stop := entry_price + row.atr * cfg.v5.atr_init_mult
  let stop_price := min atr_stop (recent_high df i)
  let qty := calculate_position_size cash cfg.risk.risk_per_trade_short
    entry_price stop_price (some cfg.risk.max_notional_pct_short)
  (entry_price, stop_price, qty)

/-- Result of the entry phase. -/
structure EntryOut where
  cash : ℚ
  pos : Option Position
  counters : Counters
deriving Repr, DecidableEq

/-- The long-entry attempt (lines 154-180). -/
def long_attempt (cfg : Config) (df : List Bar) (i : Nat) (row : Bar)
    (cash : ℚ) (c : Counters) : EntryOut :=
  if row.long_signal then
    let c1 := { c with candidates_long := c.candidates_long + 1 }
    if allow_long cfg && !range_filter row then
      let ec := long_entry_calc cfg df i row cash
      if 0 < ec.2.2 then
        { cash := cash - ec.1 * ec.2.2 * cfg.fee_rate
          pos := some { side := "LONG", entry_price := ec.1, qty := ec.2.2,
                        stop_price := ec.2.1, entry_time := row.open_time }
          counters := { c1 with entries_long := c1.entries_long + 1,
                                entries_total := c1.entries_total + 1 } }
      else { cash := cash, pos := none, counters := c1 }
    else { cash := cash, pos := none, counters := c1 }
  else { cash := cash, pos := none, counters := c }

/-- The short-entry attempt (lines 182-211), including the bear-gate block. -/
def short_attempt (cfg : Config) (hasF : Bool) (df : List Bar) (i : Nat)
    (row : Bar) (cash : ℚ) (c : Counters) : EntryOut :=
  if row.short_signal then
    let c1 := { c with candidates_short := c.candidates_short + 1 }
    if allow_short cfg && !range_filter row then
      if !bear_pass cfg hasF df i then
        { cash := cash, pos := none,
          counters := { c1 with beargate_short_blocked := c1.beargate_short_blocked + 1 } }
      else
        let ec := short_entry_calc cfg df i row cash
        if 0 < ec.2.2 then
          { cash := cash - ec.1 * ec.2.2 * cfg.fee_rate
            pos := some { side := "SHORT", entry_price := ec.1, qty := ec.2.2,
                          stop_price := ec.2.1, entry_time := row.open_time }
            counters := { c1 with entries_short := c1.entries_short + 1,
                                  entries_total := c1.entries_total + 1 } }
        else { cash := cash, pos := none, counters := c1 }
    else { cash := cash, pos := none, counters := c1 }
  else { cash := cash, pos := none, counters := c }

/-- The whole entry phase: the long attempt runs first, and the short attempt
(including its candidate tally) runs only if no long entry occurred. -/
def entry_step (cfg : Config) (hasF : Bool) (df : List Bar) (i : Nat)
    (row : Bar) (cash : ℚ) (c : Counters) : EntryOut :=
  let first := long_attempt cfg df i row cash c
  match first.pos with
  | some _ => first
  | none => short_attempt cfg hasF df i row first.cash first.counters

/-- The mid-band cross trigger of the tighten check (lines 220-224). -/
def cross_trigger (row : Bar) (prev? : Option Bar) (p : Position) : Bool :=
  if p.side = "LONG" then
    decide (row.close < row.boll_mid) &&
      (match prev? with
       | some pr => decide (pr.boll_mid ≤ pr.close)
       | none => false)
  else
    decide (row.boll_mid < row.close) &&
      (match prev? with
       | some pr => decide (pr.close ≤ pr.boll_mid)
       | none => false)

/-- Unrealized pnl percentage from entry to the current close (lines 215-218). -/
def tighten_pnl_pct (row : Bar) (p : Position) : ℚ :=
  if p.side = "LONG" then (row.close - p.entry_price) / p.entry_price
  else (p.entry_price - row.close) / p.entry_price

/-- The candidate tightened stop (lines 242-249): a trailing-style value from
the previous bar when `tighten_to = "atr_trail"` and a previous bar exists,
else the current mid-band. -/
def tighten_candidate (cfg : Config) (row : Bar) (prev? : Option Bar)
    (p : Position) : ℚ :=
  match prev? with
  | some pr =>
      if cfg.v5.tighten_to = "atr_trail" then
        if p.side = "LONG" then pr.close - pr.atr * cfg.v5.atr_trail_mult
        else pr.close + pr.atr * cfg.v5.atr_trail_mult
      else row.boll_mid
  | none => row.boll_mid

/-- The tighten check (lines 213-256): on a cross trigger, consult
`tp2_invalid_should_tighten`; on disallow bump the matching block counter; on
allow (and `tp2_invalid_action = "tighten_stop"`) stage the favorable
combination of candidate and current stop into `pending_stop`. -/
def tighten_step (cfg : Config) (i : Nat) (row : Bar) (prev? : Option Bar)
    (p : Position) (c : Counters) : Position × Counters :=
  if i = 0 then (p, c)
  else if cross_trigger row prev? p then
    let ar := tp2_invalid_should_tighten (tighten_pnl_pct row p)
      (p.hold_bars : Int)
      (if p.side = "LONG" then cfg.v5.tp2_invalid_min_pnl_pct_long
       else cfg.v5.tp2_invalid_min_pnl_pct_short)
      cfg.v5.tp2_invalid_min_hold_bars
    if !ar.1 then
      if ar.2 = "loss" then
        (p, { c with tp2_invalid_blocked_by_loss := c.tp2_invalid_blocked_by_loss + 1 })
      else if ar.2 = "hold_gate" then
        (p, { c with tp2_invalid_blocked_by_hold := c.tp2_invalid_blocked_by_hold + 1 })
      else
        (p, { c with tp2_invalid_blocked_by_profit_gate := c.tp2_invalid_blocked_by_profit_gate + 1 })
    else if cfg.v5.tp2_invalid_action = "tighten_stop" then
      let candidate := tighten_candidate cfg row prev? p
      let new_stop := if p.side = "LONG" then max p.stop_price candidate
        else min p.stop_price candidate
      ({ p with pending_stop := some new_stop, tp2_tightened := true },
       { c with tp2_invalid_tighten_count := c.tp2_invalid_tighten_count + 1 })
    else (p, c)
  else (p, c)

/-- The diagnostics pass at the top of each bar (lines 80-95). -/
def bar_diag (cfg : Config) (hasF : Bool) (df : List Bar) (i : Nat) (row : Bar)
    (c : Counters) : Counters :=
  let c :=
    if range_filter row then
      { c with d_range_blocked_bars := c.d_range_blocked_bars + 1 }
    else
      let c := { c with d_allow_long_bars := c.d_allow_long_bars + 1 }
      if bear_pass cfg hasF df i then
        { c with d_allow_short_bars := c.d_allow_short_bars + 1 }
      else c
  let c := if row.touch_long then
      { c with h_touch_long_events := c.h_touch_long_events + 1 } else c
  let c := if row.touch_short then
      { c with h_touch_short_events := c.h_touch_short_events + 1 } else c
  if bear_pass cfg hasF df i then
    { c with beargate_pass := c.beargate_pass + 1 }
  else { c with beargate_fail := c.beargate_fail + 1 }

/-- All per-bar outputs, computed from the pre-bar cash/position/counters. -/
structure BarOut where
  cash : ℚ
  position : Option Position
  trade : Option Trade
  counters : Counters
  point : EquityPoint
deriving Repr, DecidableEq

/-- Bookkeeping, trailing and the stop-exit check applied to the (at most
one) open position (lines 99-151). -/
def exit_phase (cfg : Config) (prev? : Option Bar) (row : Bar) (cash : ℚ)
    (pos : Option Position) : ExitOut :=
  match pos with
  | none => { cash := cash, pos := none, trade := none }
  | some p => exit_step cfg row cash (pos_update cfg prev? p)

/-- The tighten-triggered-exit tally (lines 149-150): bumped when an exit
trade was emitted and the exited position had been tightened. -/
def exit_counter (pos : Option Position) (tr : Option Trade) (c : Counters) :
    Counters :=
  match tr, pos with
  | some _, some p =>
      if p.tp2_tightened then
        { c with tp2_invalid_triggered_exit_count := c.tp2_invalid_triggered_exit_count + 1 }
      else c
  | _, _ => c

/-- The entry block runs only when no position is open after the exit check
(line 153). -/
def entry_phase (cfg : Config) (hasF : Bool) (df : List Bar) (i : Nat)
    (row : Bar) (cash : ℚ) (pos : Option Position) (c : Counters) : EntryOut :=
  match pos with
  | none => entry_step cfg hasF df i row cash c
  | some p => { cash := cash, pos := some p, counters := c }

/-- The tighten check runs only when a position is open (line 213). -/
def tighten_phase (cfg : Config) (i : Nat) (row : Bar) (prev? : Option Bar)
    (pos : Option Position) (c : Counters) : Option Position × Counters :=
  match pos with
  | some p =>
      let tc := tighten_step cfg i row prev? p c
      (some tc.1, tc.2)
  | none => (none, c)

/-- The body of the `for` loop of `run_backtest` for bar `i`, in source order:
diagnostics, position bookkeeping and trailing, stop exit, entries, tighten
check, equity mark. -/
def bar_out (cfg : Config) (hasF : Bool) (df : List Bar) (i : Nat) (row : Bar)
    (cash : ℚ) (pos : Option Position) (c : Counters) : BarOut :=
  let c0 := bar_diag cfg hasF df i row c
  let prev? := prev_bar df i
  let ex := exit_phase cfg prev? row cash pos
  let c1 := exit_counter pos ex.trade c0
  let en := entry_phase cfg hasF df i row ex.cash ex.pos c1
  let fin := tighten_phase cfg i row prev? en.pos en.counters
  let equity := en.cash +
    (match fin.1 with
     | some p =>
         if p.side = "LONG" then (row.close - p.entry_price) * p.qty
         else (p.entry_price - row.close) * p.qty
     | none => 0)
  { cash := en.cash
    position := fin.1
    trade := ex.trade
    counters := fin.2
    point := { open_time := row.open_time, equity := equity } }

/-- One loop iteration applied to the engine state. -/
def process_bar (cfg : Config) (hasF : Bool) (df : List Bar) (i : Nat)
    (row : Bar) (s : EngState) : EngState :=
  let o := bar_out cfg hasF df i row s.cash s.position s.counters
  { cash := o.cash
    position := o.position
    trades := match o.trade with
      | some t => s.trades ++ [t]
      | none => s.trades
    equity_curve := s.equity_curve ++ [o.point]
    counters := o.counters }

/-- The simulation loop from bar `i` on, with the cancellation predicate
polled at the top of each bar; `fuel` bounds the number of remaining
iterations (`run_backtest` passes the frame length). -/
def run_from (cfg : Config) (hasF : Bool) (df : List Bar) (flag : Nat → Bool) :
    Nat → Nat → EngState → EngState
  | 0, _, s => s
  | fuel + 1, i, s =>
    match df.get? i with
    | none => s
    | some row =>
      if flag i then s
      else run_from cfg hasF df flag fuel (i + 1) (process_bar cfg hasF df i row s)

/-- The initial engine state: flat, cash at the initial capital, all counters
zero. -/
def init_state (cfg : Config) : EngState :=
  { cash := cfg.initial_capital
    position := none
    trades := []
    equity_curve := []
    counters := init_counters }

/-- `build_signals` followed by `dropna`: the frame the loop iterates over. -/
def build_frame (raw : List Bar) : List Bar :=
  (raw.map build_signals).filter (fun b => !b.isna)

/-- `backtest_engine.run_backtest`: build the signal frame, drop NaN rows,
return the structured no-data error on an empty frame, otherwise run the loop
over all bars and package trades, equity curve and counters. -/
def run_backtest (cfg : Config) (hasF : Bool) (raw : List Bar)
    (flag : Nat → Bool) : BacktestResult :=
  let df := build_frame raw
  if df.isEmpty then
    { trades := [], equity_curve := [], meta := RunMeta.err "数据为空" }
  else
    let s := run_from cfg hasF df flag df.length 0 (init_state cfg)
    { trades := s.trades, equity_curve := s.equity_curve, meta := RunMeta.ok s.counters }

/-- The number of bars the loop processes before observing the cancellation
flag (mirrors the recursion of `run_from`). -/
def processed_count (df : List Bar) (flag : Nat → Bool) : Nat → Nat → Nat
  | 0, _ => 0
  | fuel + 1, i =>
    match df.get? i with
    | none => 0
    | some _ => if flag i then 0 else processed_count df flag fuel (i + 1) + 1

/-! ### Predicates used by the invariant claims -/

/-- The label discipline of an exit trade: `reason` and `stop_type` are
derived purely from the sign of the realized (fee-net) pnl. -/
def goodTradeLabels (t : Trade) : Prop :=
  (t.reason = "TrailStop" ↔ 0 < t.pnl) ∧ (t.reason = "Stop" ↔ t.pnl ≤ 0) ∧
  (t.stop_type = "profit_stop" ↔ 0 < t.pnl) ∧ (t.stop_type = "loss_stop" ↔ t.pnl ≤ 0)

/-- A staged pending stop never sits on the losing side of the current stop
(`≥` for LONG, `≤` for the non-LONG branch of the source). -/
def good_pending (p : Position) : Prop :=
  ∀ ps, p.pending_stop = some ps →
    if p.side = "LONG" then p.stop_price ≤ ps else ps ≤ p.stop_price

/-- Every open position of the state has a favorable pending stop. -/
def inv_state (s : EngState) : Prop :=
  ∀ p, s.position = some p → good_pending p

/-- `open_time` is strictly increasing along the frame. -/
def mono_times (df : List Bar) : Prop :=
  ∀ (j k : Nat) (bj bk : Bar), df.get? j = some bj → df.get? k = some bk →
    j < k → bj.open_time < bk.open_time

/-- The open position (if any) carries positive quantity and was entered on a
bar strictly before index `i`. -/
def pos_wf (df : List Bar) (i : Nat) (s : EngState) : Prop :=
  ∀ p, s.position = some p → 0 < p.qty ∧
    ∃ j b, j < i ∧ df.get? j = some b ∧ p.entry_time = b.open_time

/-- Trade-record well-formedness: exit strictly after entry, positive
quantity, at least one bar held. -/
def trades_wf (s : EngState) : Prop :=
  ∀ t ∈ s.trades, t.entry_time < t.exit_time ∧ 0 < t.qty ∧ 1 ≤ t.hold_bars

/-! ### Concrete fixtures used by witnesses -/

/-- A small well-formed configuration (zero fees/slippage, both sides
enabled). -/
def wCfg : Config :=
  { v5 := { ema_slope_lookback := 1, bear_adx_threshold := 20,
            atr_trail_mult := 1, atr_init_mult := 1,
            tp2_invalid_min_pnl_pct_long := 1/1000,
            tp2_invalid_min_pnl_pct_short := 1/1000,
            tp2_invalid_min_hold_bars := 16, tighten_to := "mid" }
    risk := { risk_per_trade_long := 1/100, risk_per_trade_short := 1/100,
              max_notional_pct_short := 1 }
    fee_rate := 0, slippage_rate := 0, initial_capital := 10000 }

/-- `wCfg` with the optional `tp2_invalid_action` key set to a non-default
value. -/
def cfgX : Config :=
  { wCfg with v5 := { wCfg.v5 with tp2_invalid_action := "close" } }

/-- A bar whose indicators make it a long candidate. -/
def wBar0 : Bar :=
  { open_time := 0, opn := 100, high := 101, low := 99, close := 100,
    volume := 1, close_time := 0, rsi := 60, macd_hist := 1, ema_fast := 90,
    ema_slow := 80, boll_mid := 95, boll_upper := 1000, boll_lower := 0,
    adx := 20, atr := 1, adx_f := 0, ema_fast_f := 0 }

/-- A signal-free bar whose low breaches the stop opened on `wBar0`. -/
def wBar1 : Bar :=
  { open_time := 1, opn := 100, high := 101, low := 95, close := 96,
    volume := 1, close_time := 0, rsi := 40, macd_hist := 1, ema_fast := 90,
    ema_slow := 80, boll_mid := 95, boll_upper := 1000, boll_lower := 0,
    adx := 20, atr := 1, adx_f := 0, ema_fast_f := 0 }

/-- A bar fully dropped by `dropna`. -/
def nanBar : Bar := { wBar0 with isna := true }

/-- An open LONG position used by step-level witnesses. -/
def wPosL : Position :=
  { side := "LONG", entry_price := 100, qty := 1, stop_price := 90,
    entry_time := 0 }

/-- An engine state holding `wPosL`. -/
def wState : EngState :=
  { cash := 10000, position := some wPosL, trades := [], equity_curve := [],
    counters := init_counters }

/-- A bar crossing below the mid-band (tighten trigger for a LONG). -/
def row6 : Bar :=
  { open_time := 2, opn := 101, high := 102, low := 100, close := 101,
    volume := 1, close_time := 0, rsi := 50, macd_hist := 0, ema_fast := 0,
    ema_slow := 0, boll_mid := 102, boll_upper := 0, boll_lower := 0,
    adx := 20, atr := 1, adx_f := 0, ema_fast_f := 0 }

/-- The bar preceding `row6`, closing at or above its mid-band. -/
def prev6 : Bar :=
  { open_time := 1, opn := 100, high := 101, low := 99, close := 100,
    volume := 1, close_time := 0, rsi := 50, macd_hist := 0, ema_fast := 0,
    ema_slow := 0, boll_mid := 99, boll_upper := 0, boll_lower := 0,
    adx := 20, atr := 1, adx_f := 0, ema_fast_f := 0 }

/-- A profitable LONG position held 20 bars (clears both tighten gates). -/
def p6 : Position :=
  { side := "LONG", entry_price := 100, qty := 1, stop_price := 90,
    entry_time := 0, hold_bars := 20 }

/-- The position opened on `wBar0` as it stands when `wBar1` breaches its
stop. -/
def wPosExit : Position :=
  { side := "LONG", entry_price := 100, qty := 100, stop_price := 99,
    entry_time := 0, hold_bars := 1 }

/-- The trade `exit_step` emits for `wPosExit` on `wBar1` under `wCfg`. -/
def wTrade : Trade :=
  { entry_time := 0, exit_time := 1, side := "LONG", entry_price := 100,
    exit_price := 99, qty := 100, pnl := -100, reason := "Stop",
    stop_type := "loss_stop", hold_bars := 1 }

/-- `wBar0` with its long signal set (as `build_signals` would set it). -/
def wSig0 : Bar := { wBar0 with long_signal := true }

/-- The position `entry_step` opens on `wSig0` under `wCfg` with cash
10000. -/
def wEntryPos : Position :=
  { side := "LONG", entry_price := 100, qty := 100, stop_price := 99,
    entry_time := 0 }

/-- The engine state entering bar 1 of the two-bar fixture run. -/
def wState8 : EngState :=
  { cash := 10000, position := some wEntryPos, trades := [],
    equity_curve := [], counters := init_counters }

/-! ### Claim C4: the tighten-decision function -/

/-- C4: `tp2_invalid_should_tighten` returns `(false, "loss")` whenever
`pnl_pct ≤ 0` regardless of the other arguments; `(false, "profit_gate")`
when `0 < pnl_pct < min_pnl_pct`; `(false, "hold_gate")` when the profit gate
is cleared but `hold_bars < min_hold_bars`; and `(true, "allow")` otherwise
(the checks are applied in exactly this order); in particular
`should_tighten(-0.01, 20, 0.002, 16) = (false, "loss")` and
`should_tighten(0.01, 20, 0.002, 16) = (true, "allow")`. -/
theorem C4_should_tighten_cases :
    (∀ (p : ℚ) (h : Int) (m : ℚ) (mh : Int), p ≤ 0 →
      tp2_invalid_should_tighten p h m mh = (false, "loss")) ∧
    (∀ (p : ℚ) (h : Int) (m : ℚ) (mh : Int), 0 < p → p < m →
      tp2_invalid_should_tighten p h m mh = (false, "profit_gate")) ∧
    (∀ (p : ℚ) (h : Int) (m : ℚ) (mh : Int), 0 < p → m ≤ p → h < mh →
      tp2_invalid_should_tighten p h m mh = (false, "hold_gate")) ∧
    (∀ (p : ℚ) (h : Int) (m : ℚ) (mh : Int), 0 < p → m ≤ p → mh ≤ h →
      tp2_invalid_should_tighten p h m mh = (true, "allow")) ∧
    tp2_invalid_should_tighten (-1/100) 20 (2/1000) 16 = (false, "loss") ∧
    tp2_invalid_should_tighten (1/100) 20 (2/1000) 16 = (true, "allow") := by
  refine ⟨?_, ?_, ?_, ?_, by norm_num [tp2_invalid_should_tighten],
    by norm_num [tp2_invalid_should_tighten]⟩
  · intro p h m mh hp
    simp [tp2_invalid_should_tighten, hp]
  · intro p h m mh hp hm
    simp [tp2_invalid_should_tighten, not_le.mpr hp, hm]
  · intro p h m mh hp hm hh
    simp [tp2_invalid_should_tighten, not_le.mpr hp, not_lt.mpr hm, hh]
  · intro p h m mh hp hm hh
    simp [tp2_invalid_should_tighten, not_le.mpr hp, not_lt.mpr hm, not_lt.mpr hh]

/-- Witness for C4 at a concrete input. -/
theorem C4_witness :
    tp2_invalid_should_tighten (-1) 3 (1/2) 2 = (false, "loss") :=
  C4_should_tighten_cases.1 (-1) 3 (1/2) 2 (by norm_num)

/-! ### Claim C5: the position sizer -/

/-- C5: `calculate_position_size` returns 0 whenever `entry_price ≤ 0` or
`|entry_price - stop_price| ≤ 0`; otherwise it returns
`equity * risk_pct / |entry_price - stop_price|`, capped at
`equity * max_notional_pct / entry_price` when the cap is given, floored at
0; in particular `size(10000, 0.01, 100, 90, 0.05) = 5` and
`size(10000, 0.01, 100, 90, none) = 10`.  Purity and determinism hold by
construction: it is a Lean function of its arguments only. -/
theorem C5_position_size_spec :
    (∀ (eq r e s : ℚ) (m : Option ℚ), e ≤ 0 →
      calculate_position_size eq r e s m = 0) ∧
    (∀ (eq r e s : ℚ) (m : Option ℚ), |e - s| ≤ 0 →
      calculate_position_size eq r e s m = 0) ∧
    (∀ (eq r e s : ℚ), 0 < e → e ≠ s →
      calculate_position_size eq r e s none = max (eq * r / |e - s|) 0) ∧
    (∀ (eq r e s m : ℚ), 0 < e → e ≠ s →
      calculate_position_size eq r e s (some m) =
        max (min (eq * r / |e - s|) (eq * m / e)) 0) ∧
    calculate_position_size 10000 (1/100) 100 90 (some (5/100)) = 5 ∧
    calculate_position_size 10000 (1/100) 100 90 none = 10 := by
  have habs : ∀ e s : ℚ, e ≠ s → ¬ |e - s| ≤ 0 := fun e s hne =>
    not_le.mpr (abs_pos.mpr (sub_ne_zero.mpr hne))
  refine ⟨?_, ?_, ?_, ?_, by norm_num [calculate_position_size],
    by norm_num [calculate_position_size]⟩
  · intro eq r e s m he
    simp [calculate_position_size, he]
  · intro eq r e s m hd
    by_cases he : e ≤ 0 <;> simp [calculate_position_size, he, hd]
  · intro eq r e s he hne
    simp [calculate_position_size, not_le.mpr he, habs e s hne]
  · intro eq r e s m he hne
    simp [calculate_position_size, not_le.mpr he, habs e s hne]

/-- Witness for C5 at a concrete input. -/
theorem C5_witness : calculate_position_size 5 1 (-2) 3 none = 0 :=
  C5_position_size_spec.1 5 1 (-2) 3 none (by norm_num)

/-! ### Structural lemmas about the loop -/

theorem process_bar_equity (cfg : Config) (hasF : Bool) (df : List Bar)
    (i : Nat) (row : Bar) (s : EngState) :
    (process_bar cfg hasF df i row s).equity_curve =
      s.equity_curve ++ [(bar_out cfg hasF df i row s.cash s.position s.counters).point] :=
  rfl

theorem process_bar_equity_len (cfg : Config) (hasF : Bool) (df : List Bar)
    (i : Nat) (row : Bar) (s : EngState) :
    (process_bar cfg hasF df i row s).equity_curve.length =
      s.equity_curve.length + 1 := by
  rw [process_bar_equity]; simp

theorem process_bar_trades (cfg : Config) (hasF : Bool) (df : List Bar)
    (i : Nat) (row : Bar) (s : EngState) :
    (process_bar cfg hasF df i row s).trades =
      s.trades ++ (bar_out cfg hasF df i row s.cash s.position s.counters).trade.toList := by
  cases h : (bar_out cfg hasF df i row s.cash s.position s.counters).trade <;>
    simp [process_bar, h]

theorem run_from_equity_len (cfg : Config) (hasF : Bool) (df : List Bar)
    (flag : Nat → Bool) :
    ∀ (fuel i : Nat) (s : EngState),
      (run_from cfg hasF df flag fuel i s).equity_curve.length =
        s.equity_curve.length + processed_count df flag fuel i := by
  intro fuel
  induction fuel with
  | zero => intro i s; rfl
  | succ n ih =>
    intro i s
    simp only [run_from, processed_count, List.get?_eq_getElem?]
    cases h : df[i]? with
    | none => simp [h]
    | some row =>
      by_cases hf : flag i
      · simp [h, hf]
      · simp only [h, if_neg hf]
        rw [ih, process_bar_equity_len]
        omega

theorem processed_count_no_flag (df : List Bar) (flag : Nat → Bool)
    (hf : ∀ j, flag j = false) :
    ∀ (fuel i : Nat), fuel + i ≤ df.length → processed_count df flag fuel i = fuel := by
  intro fuel
  induction fuel with
  | zero => intro i _; rfl
  | succ n ih =>
    intro i hle
    have hi : i < df.length := by omega
    have hrow : df[i]? = some df[i] := List.getElem?_eq_getElem hi
    simp [processed_count, List.get?_eq_getElem?, hrow, hf i,
      ih (i + 1) (by omega)]

/-! ### Claim C7: cancellation and equity-curve length -/

/-- C7: the equity curve always has exactly one point per processed bar
(`processed_count` mirrors the loop: a bar counts exactly when it was reached
and the flag read false at its top); when the cancellation flag reads true at
the top of a bar the loop returns the accumulated state unchanged — a normal
partial result; and without cancellation the equity curve has exactly one
point per simulated bar. -/
theorem C7_cancellation_partial :
    (∀ (cfg : Config) (hasF : Bool) (raw : List Bar) (flag : Nat → Bool),
      (run_backtest cfg hasF raw flag).equity_curve.length =
        processed_count (build_frame raw) flag (build_frame raw).length 0) ∧
    (∀ (cfg : Config) (hasF : Bool) (df : List Bar) (flag : Nat → Bool)
        (fuel i : Nat) (s : EngState), flag i = true →
      run_from cfg hasF df flag fuel i s = s) ∧
    (∀ (cfg : Config) (hasF : Bool) (raw : List Bar) (flag : Nat → Bool),
      (∀ j, flag j = false) →
      (run_backtest cfg hasF raw flag).equity_curve.length =
        (build_frame raw).length) := by
  have hlen : ∀ (cfg : Config) (hasF : Bool) (raw : List Bar) (flag : Nat → Bool),
      (run_backtest cfg hasF raw flag).equity_curve.length =
        processed_count (build_frame raw) flag (build_frame raw).length 0 := by
    intro cfg hasF raw flag
    by_cases h : (build_frame raw).isEmpty
    · have h0 : build_frame raw = [] := List.isEmpty_iff.mp h
      simp [run_backtest, h, h0, processed_count]
    · simp [run_backtest, h, run_from_equity_len, init_state]
  refine ⟨hlen, ?_, ?_⟩
  · intro cfg hasF df flag fuel i s hi
    cases fuel with
    | zero => rfl
    | succ n =>
      simp only [run_from, List.get?_eq_getElem?, hi, if_true]
      cases df[i]? <;> rfl
  · intro cfg hasF raw flag hf
    rw [hlen]
    exact processed_count_no_flag (build_frame raw) flag hf _ 0 (by omega)

/-- Witness for C7: a true flag at the top of a bar halts the loop with the
state unchanged. -/
theorem C7_witness :
    run_from wCfg false [wBar0] (fun _ => true) 5 0 wState = wState :=
  C7_cancellation_partial.2.1 wCfg false [wBar0] (fun _ => true) 5 0 wState rfl

/-! ### Claim C6: tighten staging and one-bar commit (corrected) -/

/-- C6 as stated is false: the engine stages a pending stop on an allowed
cross trigger only when the configuration's `tp2_invalid_action` (an optional
key defaulting to `"tighten_stop"`) equals `"tighten_stop"`.  Under `cfgX`
(action `"close"`), the trigger fires and the decision function allows, yet
nothing is staged, the position is not marked tightened, and the tighten
counter stays 0. -/
theorem C6_counterexample :
    cross_trigger row6 (some prev6) p6 = true ∧
    (tp2_invalid_should_tighten (tighten_pnl_pct row6 p6) (p6.hold_bars : Int)
      cfgX.v5.tp2_invalid_min_pnl_pct_long cfgX.v5.tp2_invalid_min_hold_bars).1 = true ∧
    tighten_step cfgX 1 row6 (some prev6) p6 init_counters = (p6, init_counters) := by
  refine ⟨by decide, ?_, ?_⟩
  · norm_num [tp2_invalid_should_tighten, tighten_pnl_pct, row6, p6, cfgX, wCfg]
  · norm_num [tighten_step, cross_trigger, tighten_pnl_pct,
      tp2_invalid_should_tighten, cfgX, wCfg, row6, prev6, p6]
    decide

/-- C6 (amended): for every configuration whose `tp2_invalid_action` setting
(defaulted to `"tighten_stop"` when the key is absent) is `"tighten_stop"`,
whenever the tighten-decision function allows on a cross trigger the engine
stages the favorable combination of candidate and current stop into
`pending_stop`, marks the position tightened, and increments the tighten
counter; staging never changes the active stop on the staging bar; and a
staged `pending_stop` is committed as the active stop at the start of the
position-bookkeeping step of the next bar (before the trailing update). -/
theorem C6_tighten_mechanics_amended :
    (∀ (cfg : Config) (i : Nat) (row : Bar) (prev? : Option Bar)
        (p : Position) (c : Counters),
      i ≠ 0 →
      cross_trigger row prev? p = true →
      (tp2_invalid_should_tighten (tighten_pnl_pct row p) (p.hold_bars : Int)
        (if p.side = "LONG" then cfg.v5.tp2_invalid_min_pnl_pct_long
         else cfg.v5.tp2_invalid_min_pnl_pct_short)
        cfg.v5.tp2_invalid_min_hold_bars).1 = true →
      cfg.v5.tp2_invalid_action = "tighten_stop" →
      tighten_step cfg i row prev? p c =
        ({ p with
            pending_stop := some (if p.side = "LONG"
              then max p.stop_price (tighten_candidate cfg row prev? p)
              else min p.stop_price (tighten_candidate cfg row prev? p))
            tp2_tightened := true },
         { c with tp2_invalid_tighten_count := c.tp2_invalid_tighten_count + 1 })) ∧
    (∀ (cfg : Config) (i : Nat) (row : Bar) (prev? : Option Bar)
        (p : Position) (c : Counters),
      (tighten_step cfg i row prev? p c).1.stop_price = p.stop_price) ∧
    (∀ (p : Position) (ps : ℚ), p.pending_stop = some ps →
      commit_pending p = { p with stop_price := ps, pending_stop := none }) ∧
    (∀ (cfg : Config) (prev? : Option Bar) (p : Position),
      pos_update cfg prev? p =
        apply_trail cfg prev? (commit_pending { p with hold_bars := p.hold_bars + 1 })) := by
  refine ⟨?_, ?_, ?_, fun _ _ _ => rfl⟩
  · intro cfg i row prev? p c hi htrig hallow haction
    simp [tighten_step, hi, htrig, hallow, haction]
  · intro cfg i row prev? p c
    simp only [tighten_step]
    split_ifs <;> rfl
  · intro p ps h
    simp [commit_pending, h]

/-- Witness for the amended C6 at a concrete input. -/
theorem C6_witness :
    (tighten_step wCfg 1 row6 (some prev6) p6 init_counters).1.pending_stop = some 102 ∧
    (tighten_step wCfg 1 row6 (some prev6) p6 init_counters).2.tp2_invalid_tighten_count = 1 := by
  have h := C6_tighten_mechanics_amended.1 wCfg 1 row6 (some prev6) p6
    init_counters (by decide) (by decide)
    (by norm_num [tp2_invalid_should_tighten, tighten_pnl_pct, row6, p6, wCfg]) rfl
  rw [h]
  constructor
  · norm_num [tighten_candidate, row6, prev6, p6, wCfg]
    rw [if_neg (by decide : ¬ ("mid" : String) = "atr_trail")]
    exact sup_eq_right.mpr (by norm_num)
  · rfl

/-! ### Claim C3: exit labels follow the sign of realized pnl -/

theorem exit_step_trade_eq (cfg : Config) (row : Bar) (cash : ℚ)
    (p : Position) (t : Trade)
    (h : (exit_step cfg row cash p).trade = some t) :
    t.pnl = (if p.side = "LONG"
        then (t.exit_price - p.entry_price) * p.qty
        else (p.entry_price - t.exit_price) * p.qty) -
      t.exit_price * p.qty * cfg.fee_rate ∧
    t.reason = (if 0 < t.pnl then "TrailStop" else "Stop") ∧
    t.stop_type = (if 0 < t.pnl then "profit_stop" else "loss_stop") := by
  by_cases hh : stop_hit row p
  · simp only [exit_step, hh, if_true] at h
    obtain rfl := (Option.some.injEq _ _).mp h
    exact ⟨rfl, rfl, rfl⟩
  · simp only [exit_step, hh, if_false] at h
    exact Option.noConfusion h

theorem exit_step_good_labels (cfg : Config) (row : Bar) (cash : ℚ)
    (p : Position) (t : Trade)
    (h : (exit_step cfg row cash p).trade = some t) : goodTradeLabels t := by
  obtain ⟨_, hr, hs⟩ := exit_step_trade_eq cfg row cash p t h
  by_cases h0 : 0 < t.pnl <;>
    simp [goodTradeLabels, hr, hs, h0, le_of_not_lt, not_le.mpr]

theorem bar_out_trade (cfg : Config) (hasF : Bool) (df : List Bar) (i : Nat)
    (row : Bar) (cash : ℚ) (pos : Option Position) (c : Counters) (t : Trade)
    (h : (bar_out cfg hasF df i row cash pos c).trade = some t) :
    ∃ p, pos = some p ∧
      (exit_step cfg row cash (pos_update cfg (prev_bar df i) p)).trade = some t := by
  cases pos with
  | none => exact Option.noConfusion h
  | some p => exact ⟨p, rfl, h⟩

theorem run_from_trades_labels (cfg : Config) (hasF : Bool) (df : List Bar)
    (flag : Nat → Bool) :
    ∀ (fuel i : Nat) (s : EngState),
      (∀ t ∈ s.trades, goodTradeLabels t) →
      ∀ t ∈ (run_from cfg hasF df flag fuel i s).trades, goodTradeLabels t := by
  intro fuel
  induction fuel with
  | zero => intro i s hs; exact hs
  | succ n ih =>
    intro i s hs
    simp only [run_from, List.get?_eq_getElem?]
    cases h : df[i]? with
    | none => exact hs
    | some row =>
      by_cases hf : flag i
      · simp only [if_pos hf]; exact hs
      · simp only [if_neg hf]
        refine ih (i + 1) _ ?_
        intro t ht
        rw [process_bar_trades] at ht
        rcases List.mem_append.mp ht with h1 | h2
        · exact hs t h1
        · have h3 : (bar_out cfg hasF df i row s.cash s.position s.counters).trade = some t := by
            simpa [Option.mem_toList, Option.mem_def] using h2
          obtain ⟨p, _, hex⟩ := bar_out_trade cfg hasF df i row s.cash
            s.position s.counters t h3
          exact exit_step_good_labels _ _ _ _ _ hex

/-- C3: on a stop exit the emitted trade's realized pnl nets the exit fee,
its `reason` is `"TrailStop"` exactly when that realized pnl is strictly
positive and `"Stop"` otherwise, and its `stop_type` is `"profit_stop"`
exactly when the realized pnl is strictly positive and `"loss_stop"`
otherwise — for the direct exit computation and for every trade any full run
records. -/
theorem C3_exit_labels :
    (∀ (cfg : Config) (row : Bar) (cash : ℚ) (p : Position) (t : Trade),
      (exit_step cfg row cash p).trade = some t →
      t.pnl = (if p.side = "LONG"
          then (t.exit_price - p.entry_price) * p.qty
          else (p.entry_price - t.exit_price) * p.qty) -
        t.exit_price * p.qty * cfg.fee_rate ∧
      t.reason = (if 0 < t.pnl then "TrailStop" else "Stop") ∧
      t.stop_type = (if 0 < t.pnl then "profit_stop" else "loss_stop")) ∧
    (∀ (cfg : Config) (hasF : Bool) (raw : List Bar) (flag : Nat → Bool)
        (t : Trade), t ∈ (run_backtest cfg hasF raw flag).trades →
      goodTradeLabels t) := by
  refine ⟨exit_step_trade_eq, ?_⟩
  intro cfg hasF raw flag t ht
  by_cases h : (build_frame raw).isEmpty
  · simp [run_backtest, h] at ht
  · have hne : (build_frame raw).isEmpty = false := by
      simpa using h
    simp [run_backtest, hne] at ht
    exact run_from_trades_labels cfg hasF (build_frame raw) flag _ 0
      (init_state cfg) (by simp [init_state]) t ht

/-- Witness for C3 at a concrete exit. -/
theorem C3_witness :
    wTrade.pnl = (if wPosExit.side = "LONG"
        then (wTrade.exit_price - wPosExit.entry_price) * wPosExit.qty
        else (wPosExit.entry_price - wTrade.exit_price) * wPosExit.qty) -
      wTrade.exit_price * wPosExit.qty * wCfg.fee_rate ∧
    wTrade.reason = (if 0 < wTrade.pnl then "TrailStop" else "Stop") ∧
    wTrade.stop_type = (if 0 < wTrade.pnl then "profit_stop" else "loss_stop") :=
  C3_exit_labels.1 wCfg wBar1 10000 wPosExit wTrade
    (by norm_num [exit_step, stop_hit, wPosExit, wBar1, wCfg, wTrade])

/-! ### Window lemmas for the structural stops -/

theorem foldl_min_le_init (l : List Bar) (init : ℚ) :
    l.foldl (fun m x => min m x.low) init ≤ init := by
  induction l generalizing init with
  | nil => exact le_refl _
  | cons c cs ih => exact le_trans (ih (min init c.low)) (min_le_left _ _)

theorem foldl_min_le_mem : ∀ (l : List Bar) (init : ℚ) (b : Bar), b ∈ l →
    l.foldl (fun m x => min m x.low) init ≤ b.low := by
  intro l
  induction l with
  | nil => intro init b hb; cases hb
  | cons c cs ih =>
    intro init b hb
    rcases List.mem_cons.mp hb with rfl | hb2
    · exact le_trans (foldl_min_le_init cs (min init b.low)) (min_le_right _ _)
    · exact ih (min init c.low) b hb2

theorem foldl_max_ge_init (l : List Bar) (init : ℚ) :
    init ≤ l.foldl (fun m x => max m x.high) init := by
  induction l generalizing init with
  | nil => exact le_refl _
  | cons c cs ih => exact le_trans (le_max_left _ _) (ih (max init c.high))

theorem foldl_max_ge_mem : ∀ (l : List Bar) (init : ℚ) (b : Bar), b ∈ l →
    b.high ≤ l.foldl (fun m x => max m x.high) init := by
  intro l
  induction l with
  | nil => intro init b hb; cases hb
  | cons c cs ih =>
    intro init b hb
    rcases List.mem_cons.mp hb with rfl | hb2
    · exact le_trans (le_max_right _ _) (foldl_max_ge_init cs (max init b.high))
    · exact ih (max init c.high) b hb2

theorem mem_entry_window (df : List Bar) (i : Nat) (row : Bar)
    (h : df.get? i = some row) : row ∈ entry_window df i := by
  have h1 : (df.drop (i - 4)).get? (i - (i - 4)) = some row := by
    rw [List.get?_drop, Nat.add_sub_cancel' (Nat.sub_le i 4)]
    exact h
  have h2 : (entry_window df i).get? (i - (i - 4)) = some row := by
    rw [entry_window, List.get?_take (Nat.lt_succ_self _)]
    exact h1
  exact List.get?_mem h2

theorem recent_low_le (df : List Bar) (i : Nat) (row : Bar)
    (h : df.get? i = some row) : recent_low df i ≤ row.low := by
  have hmem := mem_entry_window df i row h
  rcases hw : entry_window df i with _ | ⟨b, bs⟩ <;> rw [hw] at hmem
  · cases hmem
  · simp only [recent_low, hw]
    rcases List.mem_cons.mp hmem with rfl | hb
    · exact foldl_min_le_init bs row.low
    · exact foldl_min_le_mem bs b.low row hb

theorem recent_high_ge (df : List Bar) (i : Nat) (row : Bar)
    (h : df.get? i = some row) : row.high ≤ recent_high df i := by
  have hmem := mem_entry_window df i row h
  rcases hw : entry_window df i with _ | ⟨b, bs⟩ <;> rw [hw] at hmem
  · cases hmem
  · simp only [recent_high, hw]
    rcases List.mem_cons.mp hmem with rfl | hb
    · exact foldl_max_ge_init bs row.high
    · exact foldl_max_ge_mem bs b.high row hb

/-! ### Entry-phase analysis lemmas -/

theorem size_self_eq_zero (eq r e : ℚ) (m : Option ℚ) :
    calculate_position_size eq r e e m = 0 := by
  by_cases he : e ≤ 0 <;> simp [calculate_position_size, he]

theorem size_pos_inv (eq r e s : ℚ) (m : Option ℚ)
    (h : 0 < calculate_position_size eq r e s m) : 0 < e ∧ e ≠ s := by
  by_cases he : e ≤ 0
  · simp [calculate_position_size, he] at h
  · refine ⟨not_le.mp he, ?_⟩
    rintro rfl
    rw [size_self_eq_zero] at h
    exact lt_irrefl 0 h

theorem long_attempt_pos_eq (cfg : Config) (df : List Bar) (i : Nat)
    (row : Bar) (cash : ℚ) (c : Counters) (p : Position)
    (h : (long_attempt cfg df i row cash c).pos = some p) :
    p = { side := "LONG", entry_price := (long_entry_calc cfg df i row cash).1,
          qty := (long_entry_calc cfg df i row cash).2.2,
          stop_price := (long_entry_calc cfg df i row cash).2.1,
          entry_time := row.open_time } ∧
    0 < (long_entry_calc cfg df i row cash).2.2 := by
  simp only [long_attempt] at h
  split_ifs at h with h1 h2 h3
  · exact ⟨(Option.some.inj h).symm, h3⟩
  all_goals simp at h

theorem short_attempt_pos_eq (cfg : Config) (hasF : Bool) (df : List Bar)
    (i : Nat) (row : Bar) (cash : ℚ) (c : Counters) (p : Position)
    (h : (short_attempt cfg hasF df i row cash c).pos = some p) :
    p = { side := "SHORT", entry_price := (short_entry_calc cfg df i row cash).1,
          qty := (short_entry_calc cfg df i row cash).2.2,
          stop_price := (short_entry_calc cfg df i row cash).2.1,
          entry_time := row.open_time } ∧
    0 < (short_entry_calc cfg df i row cash).2.2 := by
  simp only [short_attempt] at h
  split_ifs at h with h1 h2 h3 h4
  all_goals first
    | exact ⟨(Option.some.inj h).symm, by assumption⟩
    | simp at h

theorem long_attempt_cash_of_none (cfg : Config) (df : List Bar) (i : Nat)
    (row : Bar) (cash : ℚ) (c : Counters)
    (h : (long_attempt cfg df i row cash c).pos = none) :
    (long_attempt cfg df i row cash c).cash = cash := by
  simp only [long_attempt] at h ⊢
  split_ifs at h ⊢ <;> first | rfl | simp at h

theorem entry_step_pos_cases (cfg : Config) (hasF : Bool) (df : List Bar)
    (i : Nat) (row : Bar) (cash : ℚ) (c : Counters) (p : Position)
    (h : (entry_step cfg hasF df i row cash c).pos = some p) :
    (long_attempt cfg df i row cash c).pos = some p ∨
    ((long_attempt cfg df i row cash c).pos = none ∧
      (short_attempt cfg hasF df i row cash
        (long_attempt cfg df i row cash c).counters).pos = some p) := by
  unfold entry_step at h
  cases hl : (long_attempt cfg df i row cash c).pos with
  | some q =>
    simp only [hl] at h
    left
    exact h
  | none =>
    simp only [hl] at h
    right
    refine ⟨rfl, ?_⟩
    rwa [long_attempt_cash_of_none cfg df i row cash c hl] at h

theorem long_attempt_of_qty_nonpos (cfg : Config) (df : List Bar) (i : Nat)
    (row : Bar) (cash : ℚ) (c : Counters)
    (h : ¬ 0 < (long_entry_calc cfg df i row cash).2.2) :
    (long_attempt cfg df i row cash c).pos = none ∧
    (long_attempt cfg df i row cash c).cash = cash := by
  simp only [long_attempt]
  split_ifs <;> first | exact ⟨rfl, rfl⟩ | exact absurd ‹_› h

theorem short_attempt_of_qty_nonpos (cfg : Config) (hasF : Bool)
    (df : List Bar) (i : Nat) (row : Bar) (cash : ℚ) (c : Counters)
    (h : ¬ 0 < (short_entry_calc cfg df i row cash).2.2) :
    (short_attempt cfg hasF df i row cash c).pos = none ∧
    (short_attempt cfg hasF df i row cash c).cash = cash := by
  simp only [short_attempt]
  split_ifs <;> first | exact ⟨rfl, rfl⟩ | exact absurd ‹_› h

theorem entry_step_of_qty_nonpos (cfg : Config) (hasF : Bool) (df : List Bar)
    (i : Nat) (row : Bar) (cash : ℚ) (c : Counters)
    (hl : ¬ 0 < (long_entry_calc cfg df i row cash).2.2)
    (hs : ¬ 0 < (short_entry_calc cfg df i row cash).2.2) :
    (entry_step cfg hasF df i row cash c).pos = none ∧
    (entry_step cfg hasF df i row cash c).cash = cash := by
  obtain ⟨hlp, hlc⟩ := long_attempt_of_qty_nonpos cfg df i row cash c hl
  simp only [entry_step, hlp, hlc]
  exact short_attempt_of_qty_nonpos cfg hasF df i row cash _ hs

/-! ### Claim C9: the no-data error path and numeric edge cases -/

/-- C9: an input frame that is empty (or becomes empty after `dropna`) yields
empty trades and equity plus the structured `"数据为空"` ("no data") error
marker; every non-empty frame takes the normal path whose metadata is the
counters mapping (the embedding is total, so no other error path exists);
and the numeric edge cases — non-positive entry price, zero stop distance,
and zero ATR on an entry bar — all produce quantity 0 / no-entry no-ops. -/
theorem C9_no_data_error :
    (∀ (cfg : Config) (hasF : Bool) (raw : List Bar) (flag : Nat → Bool),
      build_frame raw = [] →
      run_backtest cfg hasF raw flag =
        { trades := [], equity_curve := [], meta := RunMeta.err "数据为空" }) ∧
    (∀ (cfg : Config) (hasF : Bool) (raw : List Bar) (flag : Nat → Bool),
      build_frame raw ≠ [] →
      (run_backtest cfg hasF raw flag).meta =
        RunMeta.ok (run_from cfg hasF (build_frame raw) flag
          (build_frame raw).length 0 (init_state cfg)).counters) ∧
    (∀ (eq r e s : ℚ) (m : Option ℚ), e ≤ 0 →
      calculate_position_size eq r e s m = 0) ∧
    (∀ (eq r e : ℚ) (m : Option ℚ), calculate_position_size eq r e e m = 0) ∧
    (∀ (cfg : Config) (hasF : Bool) (df : List Bar) (i : Nat) (row : Bar)
        (cash : ℚ) (c : Counters),
      df.get? i = some row → row.atr = 0 → 0 ≤ cfg.slippage_rate →
      row.low ≤ row.close → row.close ≤ row.high → 0 ≤ row.close →
      (entry_step cfg hasF df i row cash c).pos = none ∧
      (entry_step cfg hasF df i row cash c).cash = cash) := by
  refine ⟨?_, ?_, ?_, fun eq r e m => size_self_eq_zero eq r e m, ?_⟩
  · intro cfg hasF raw flag h
    simp [run_backtest, h]
  · intro cfg hasF raw flag h
    have hne : (build_frame raw).isEmpty = false := by
      simpa [List.isEmpty_iff] using h
    simp [run_backtest, hne]
  · intro eq r e s m he
    simp [calculate_position_size, he]
  · intro cfg hasF df i row cash c hrow hatr hslip hlc hch hc0
    have hce : row.close ≤ row.close * (1 + cfg.slippage_rate) :=
      le_mul_of_one_le_right hc0 (by linarith)
    have hec : row.close * (1 - cfg.slippage_rate) ≤ row.close :=
      mul_le_of_le_one_right hc0 (by linarith)
    have hlstop : (long_entry_calc cfg df i row cash).2.1 =
        row.close * (1 + cfg.slippage_rate) := by
      simp only [long_entry_calc]
      rw [hatr, zero_mul, sub_zero]
      exact max_eq_left (le_trans (recent_low_le df i row hrow) (le_trans hlc hce))
    have hsstop : (short_entry_calc cfg df i row cash).2.1 =
        row.close * (1 - cfg.slippage_rate) := by
      simp only [short_entry_calc]
      rw [hatr, zero_mul, add_zero]
      exact min_eq_left (le_trans hec (le_trans hch (recent_high_ge df i row hrow)))
    have hlq : ¬ 0 < (long_entry_calc cfg df i row cash).2.2 := by
      have : (long_entry_calc cfg df i row cash).2.2 =
          calculate_position_size cash cfg.risk.risk_per_trade_long
            (row.close * (1 + cfg.slippage_rate))
            (long_entry_calc cfg df i row cash).2.1 none := rfl
      rw [this, hlstop, size_self_eq_zero]
      exact lt_irrefl 0
    have hsq : ¬ 0 < (short_entry_calc cfg df i row cash).2.2 := by
      have : (short_entry_calc cfg df i row cash).2.2 =
          calculate_position_size cash cfg.risk.risk_per_trade_short
            (row.close * (1 - cfg.slippage_rate))
            (short_entry_calc cfg df i row cash).2.1
            (some cfg.risk.max_notional_pct_short) := rfl
      rw [this, hsstop, size_self_eq_zero]
      exact lt_irrefl 0
    exact entry_step_of_qty_nonpos cfg hasF df i row cash c hlq hsq

/-- Witness for C9: a frame that `dropna` empties returns the structured
no-data result. -/
theorem C9_witness :
    run_backtest wCfg false [nanBar] (fun _ => false) =
      { trades := [], equity_curve := [], meta := RunMeta.err "数据为空" } :=
  C9_no_data_error.1 wCfg false [nanBar] (fun _ => false) rfl

/-! ### Claim C10: the initial stop lies on the losing side of entry -/

/-- C10: whenever the entry phase opens a position (which requires a positive
quantity from the sizer), the initial stop lies strictly on the losing side
of the entry price — below it for LONG, above it for SHORT — given
non-negative slippage, ATR and ATR multiplier and a well-formed bar
(`low ≤ close ≤ high`, `0 < close`): the structural stop is bounded by the
current close, the ATR stop sits on the losing side, and a zero stop
distance would have produced quantity 0 and no entry. -/
theorem C10_initial_stop_side :
    ∀ (cfg : Config) (hasF : Bool) (df : List Bar) (i : Nat) (row : Bar)
      (cash : ℚ) (c : Counters),
      df.get? i = some row →
      0 ≤ cfg.slippage_rate → 0 ≤ row.atr → 0 ≤ cfg.v5.atr_init_mult →
      row.low ≤ row.close → row.close ≤ row.high → 0 < row.close →
      ∀ p, (entry_step cfg hasF df i row cash c).pos = some p →
        (p.side = "LONG" → p.stop_price < p.entry_price) ∧
        (p.side = "SHORT" → p.entry_price < p.stop_price) := by
  intro cfg hasF df i row cash c hrow hslip hatr hmult hlc hch hc p hp
  have hatrm : 0 ≤ row.atr * cfg.v5.atr_init_mult := mul_nonneg hatr hmult
  have hce : row.close ≤ row.close * (1 + cfg.slippage_rate) :=
    le_mul_of_one_le_right (le_of_lt hc) (by linarith)
  have hec : row.close * (1 - cfg.slippage_rate) ≤ row.close :=
    mul_le_of_le_one_right (le_of_lt hc) (by linarith)
  rcases entry_step_pos_cases cfg hasF df i row cash c p hp with hl | ⟨-, hs⟩
  · obtain ⟨rfl, hq⟩ := long_attempt_pos_eq cfg df i row cash c p hl
    refine ⟨fun _ => ?_, fun hside => by simp at hside⟩
    obtain ⟨-, hne⟩ := size_pos_inv cash cfg.risk.risk_per_trade_long
      (row.close * (1 + cfg.slippage_rate)) (long_entry_calc cfg df i row cash).2.1
      none hq
    have hle : (long_entry_calc cfg df i row cash).2.1 ≤
        row.close * (1 + cfg.slippage_rate) := by
      simp only [long_entry_calc]
      exact max_le (by linarith)
        (le_trans (recent_low_le df i row hrow) (le_trans hlc hce))
    exact lt_of_le_of_ne hle (Ne.symm hne)
  · obtain ⟨rfl, hq⟩ := short_attempt_pos_eq cfg hasF df i row cash _ p hs
    refine ⟨fun hside => by simp at hside, fun _ => ?_⟩
    obtain ⟨-, hne⟩ := size_pos_inv cash cfg.risk.risk_per_trade_short
      (row.close * (1 - cfg.slippage_rate)) (short_entry_calc cfg df i row cash).2.1
      (some cfg.risk.max_notional_pct_short) hq
    have hge : row.close * (1 - cfg.slippage_rate) ≤
        (short_entry_calc cfg df i row cash).2.1 := by
      simp only [short_entry_calc]
      exact le_min (by linarith)
        (le_trans hec (le_trans hch (recent_high_ge df i row hrow)))
    exact lt_of_le_of_ne hge hne

/-! ### Field-preservation lemmas for the per-bar phases -/

theorem bar_diag_entries (cfg : Config) (hasF : Bool) (df : List Bar)
    (i : Nat) (row : Bar) (c : Counters) :
    (bar_diag cfg hasF df i row c).entries_total = c.entries_total ∧
    (bar_diag cfg hasF df i row c).entries_long = c.entries_long ∧
    (bar_diag cfg hasF df i row c).entries_short = c.entries_short ∧
    (bar_diag cfg hasF df i row c).candidates_long = c.candidates_long ∧
    (bar_diag cfg hasF df i row c).candidates_short = c.candidates_short := by
  simp only [bar_diag]
  split_ifs <;> exact ⟨rfl, rfl, rfl, rfl, rfl⟩

theorem tighten_step_counters (cfg : Config) (i : Nat) (row : Bar)
    (prev? : Option Bar) (p : Position) (c : Counters) :
    (tighten_step cfg i row prev? p c).2.entries_total = c.entries_total ∧
    (tighten_step cfg i row prev? p c).2.entries_long = c.entries_long ∧
    (tighten_step cfg i row prev? p c).2.entries_short = c.entries_short ∧
    (tighten_step cfg i row prev? p c).2.candidates_long = c.candidates_long ∧
    (tighten_step cfg i row prev? p c).2.candidates_short = c.candidates_short := by
  simp only [tighten_step]
  split_ifs <;> exact ⟨rfl, rfl, rfl, rfl, rfl⟩

theorem tighten_step_pos_core (cfg : Config) (i : Nat) (row : Bar)
    (prev? : Option Bar) (p : Position) (c : Counters) :
    (tighten_step cfg i row prev? p c).1.side = p.side ∧
    (tighten_step cfg i row prev? p c).1.stop_price = p.stop_price ∧
    (tighten_step cfg i row prev? p c).1.qty = p.qty ∧
    (tighten_step cfg i row prev? p c).1.entry_price = p.entry_price ∧
    (tighten_step cfg i row prev? p c).1.entry_time = p.entry_time ∧
    (tighten_step cfg i row prev? p c).1.hold_bars = p.hold_bars := by
  simp only [tighten_step]
  split_ifs <;> exact ⟨rfl, rfl, rfl, rfl, rfl, rfl⟩

theorem tighten_step_good (cfg : Config) (i : Nat) (row : Bar)
    (prev? : Option Bar) (p : Position) (c : Counters)
    (hg : good_pending p) : good_pending (tighten_step cfg i row prev? p c).1 := by
  simp only [tighten_step]
  split_ifs with h1 h2 h3 h4 h5 h6 h7
  any_goals exact hg
  all_goals
    intro ps hps
    obtain rfl := Option.some.inj hps
    simp_all [le_max_left, min_le_left]

theorem commit_pending_pending (p : Position) :
    (commit_pending p).pending_stop = none := by
  unfold commit_pending
  cases hp : p.pending_stop <;> simp [hp]

theorem commit_pending_core (p : Position) :
    (commit_pending p).side = p.side ∧
    (commit_pending p).qty = p.qty ∧
    (commit_pending p).entry_price = p.entry_price ∧
    (commit_pending p).entry_time = p.entry_time ∧
    (commit_pending p).hold_bars = p.hold_bars ∧
    (commit_pending p).tp2_tightened = p.tp2_tightened := by
  unfold commit_pending
  cases p.pending_stop <;> exact ⟨rfl, rfl, rfl, rfl, rfl, rfl⟩

theorem commit_pending_stop (p : Position) (hg : good_pending p) :
    (p.side = "LONG" → p.stop_price ≤ (commit_pending p).stop_price) ∧
    (p.side ≠ "LONG" → (commit_pending p).stop_price ≤ p.stop_price) := by
  unfold commit_pending
  cases hp : p.pending_stop with
  | none => exact ⟨fun _ => le_refl _, fun _ => le_refl _⟩
  | some ps =>
    have hfav := hg ps hp
    constructor
    · intro hl
      rw [if_pos hl] at hfav
      exact hfav
    · intro hn
      rw [if_neg hn] at hfav
      exact hfav

theorem apply_trail_core (cfg : Config) (prev? : Option Bar) (p : Position) :
    (apply_trail cfg prev? p).side = p.side ∧
    (apply_trail cfg prev? p).qty = p.qty ∧
    (apply_trail cfg prev? p).entry_price = p.entry_price ∧
    (apply_trail cfg prev? p).entry_time = p.entry_time ∧
    (apply_trail cfg prev? p).hold_bars = p.hold_bars ∧
    (apply_trail cfg prev? p).tp2_tightened = p.tp2_tightened ∧
    (apply_trail cfg prev? p).pending_stop = p.pending_stop := by
  unfold apply_trail
  cases prev? with
  | none => exact ⟨rfl, rfl, rfl, rfl, rfl, rfl, rfl⟩
  | some prev =>
    dsimp only
    split_ifs <;> exact ⟨rfl, rfl, rfl, rfl, rfl, rfl, rfl⟩

theorem apply_trail_stop (cfg : Config) (prev? : Option Bar) (p : Position) :
    (p.side = "LONG" → p.stop_price ≤ (apply_trail cfg prev? p).stop_price) ∧
    (p.side ≠ "LONG" → (apply_trail cfg prev? p).stop_price ≤ p.stop_price) := by
  unfold apply_trail
  cases prev? with
  | none => exact ⟨fun _ => le_refl _, fun _ => le_refl _⟩
  | some prev =>
    dsimp only
    split_ifs with h1 h2 h3 h4
    · exact ⟨fun _ => le_refl _, fun _ => le_refl _⟩
    · exact ⟨fun _ => le_of_lt h3, fun hn => absurd h2 hn⟩
    · exact ⟨fun _ => le_refl _, fun _ => le_refl _⟩
    · exact ⟨fun hl => absurd hl h2, fun _ => le_of_lt h4⟩
    · exact ⟨fun _ => le_refl _, fun _ => le_refl _⟩

theorem pos_update_pending (cfg : Config) (prev? : Option Bar) (p : Position) :
    (pos_update cfg prev? p).pending_stop = none := by
  unfold pos_update
  rw [(apply_trail_core cfg prev? _).2.2.2.2.2.2]
  exact commit_pending_pending _

theorem pos_update_core (cfg : Config) (prev? : Option Bar) (p : Position) :
    (pos_update cfg prev? p).side = p.side ∧
    (pos_update cfg prev? p).qty = p.qty ∧
    (pos_update cfg prev? p).entry_price = p.entry_price ∧
    (pos_update cfg prev? p).entry_time = p.entry_time ∧
    (pos_update cfg prev? p).hold_bars = p.hold_bars + 1 ∧
    (pos_update cfg prev? p).tp2_tightened = p.tp2_tightened := by
  unfold pos_update
  obtain ⟨a1, a2, a3, a4, a5, a6, -⟩ := apply_trail_core cfg prev?
    (commit_pending { p with hold_bars := p.hold_bars + 1 })
  obtain ⟨b1, b2, b3, b4, b5, b6⟩ :=
    commit_pending_core { p with hold_bars := p.hold_bars + 1 }
  exact ⟨a1.trans b1, a2.trans b2, a3.trans b3, a4.trans b4, a5.trans b5,
    a6.trans b6⟩

theorem good_pending_of_none (p : Position) (h : p.pending_stop = none) :
    good_pending p := by
  intro ps hp
  rw [h] at hp
  exact Option.noConfusion hp

theorem pos_update_stop (cfg : Config) (prev? : Option Bar) (p : Position)
    (hg : good_pending p) :
    (p.side = "LONG" → p.stop_price ≤ (pos_update cfg prev? p).stop_price) ∧
    (p.side ≠ "LONG" → (pos_update cfg prev? p).stop_price ≤ p.stop_price) := by
  unfold pos_update
  have hgh : good_pending { p with hold_bars := p.hold_bars + 1 } := fun ps hp => hg ps hp
  obtain ⟨c1, c2⟩ := commit_pending_stop { p with hold_bars := p.hold_bars + 1 } hgh
  obtain ⟨t1, t2⟩ := apply_trail_stop cfg prev?
    (commit_pending { p with hold_bars := p.hold_bars + 1 })
  have hside : (commit_pending { p with hold_bars := p.hold_bars + 1 }).side = p.side :=
    (commit_pending_core _).1
  constructor
  · intro hl
    exact le_trans (c1 hl) (t1 (hside.trans hl))
  · intro hn
    refine le_trans (t2 ?_) (c2 hn)
    rw [hside]
    exact hn

/-! ### Entry-phase counter lemmas -/

theorem long_attempt_counters (cfg : Config) (df : List Bar) (i : Nat)
    (row : Bar) (cash : ℚ) (c : Counters) :
    ((long_attempt cfg df i row cash c).counters.entries_total ≤ c.entries_total + 1) ∧
    ((long_attempt cfg df i row cash c).pos = none →
      (long_attempt cfg df i row cash c).counters.entries_total = c.entries_total) ∧
    ((long_attempt cfg df i row cash c).counters.candidates_short = c.candidates_short) ∧
    ((long_attempt cfg df i row cash c).counters.entries_short = c.entries_short) := by
  simp only [long_attempt]
  split_ifs <;> refine ⟨?_, ?_, rfl, rfl⟩ <;> simp

theorem short_attempt_counters (cfg : Config) (hasF : Bool) (df : List Bar)
    (i : Nat) (row : Bar) (cash : ℚ) (c : Counters) :
    ((short_attempt cfg hasF df i row cash c).counters.entries_total ≤ c.entries_total + 1) ∧
    ((short_attempt cfg hasF df i row cash c).counters.candidates_long = c.candidates_long) ∧
    ((short_attempt cfg hasF df i row cash c).counters.entries_long = c.entries_long) := by
  simp only [short_attempt]
  split_ifs <;> refine ⟨?_, rfl, rfl⟩ <;> simp

theorem entry_step_entries_le (cfg : Config) (hasF : Bool) (df : List Bar)
    (i : Nat) (row : Bar) (cash : ℚ) (c : Counters) :
    (entry_step cfg hasF df i row cash c).counters.entries_total ≤
      c.entries_total + 1 := by
  simp only [entry_step]
  cases hl : (long_attempt cfg df i row cash c).pos with
  | some q => exact (long_attempt_counters cfg df i row cash c).1
  | none =>
    calc (short_attempt cfg hasF df i row (long_attempt cfg df i row cash c).cash
            (long_attempt cfg df i row cash c).counters).counters.entries_total
        ≤ (long_attempt cfg df i row cash c).counters.entries_total + 1 :=
          (short_attempt_counters _ _ _ _ _ _ _).1
      _ = c.entries_total + 1 := by
          rw [(long_attempt_counters cfg df i row cash c).2.1 hl]

theorem entry_step_pos_basic (cfg : Config) (hasF : Bool) (df : List Bar)
    (i : Nat) (row : Bar) (cash : ℚ) (c : Counters) (p : Position)
    (h : (entry_step cfg hasF df i row cash c).pos = some p) :
    p.pending_stop = none ∧ (p.side = "LONG" ∨ p.side = "SHORT") := by
  rcases entry_step_pos_cases cfg hasF df i row cash c p h with hl | ⟨-, hs⟩
  · obtain ⟨rfl, -⟩ := long_attempt_pos_eq cfg df i row cash c p hl
    exact ⟨rfl, Or.inl rfl⟩
  · obtain ⟨rfl, -⟩ := short_attempt_pos_eq cfg hasF df i row cash _ p hs
    exact ⟨rfl, Or.inr rfl⟩

/-! ### Phase-level shape lemmas -/

theorem exit_step_pos_eq (cfg : Config) (row : Bar) (cash : ℚ)
    (p p2 : Position) (h : (exit_step cfg row cash p).pos = some p2) :
    p2 = p := by
  unfold exit_step at h
  split_ifs at h
  exact (Option.some.inj h).symm

theorem exit_phase_pos (cfg : Config) (prev? : Option Bar) (row : Bar)
    (cash : ℚ) (pos : Option Position) (p2 : Position)
    (h : (exit_phase cfg prev? row cash pos).pos = some p2) :
    ∃ p, pos = some p ∧ p2 = pos_update cfg prev? p := by
  cases pos with
  | none => simp [exit_phase] at h
  | some p => exact ⟨p, rfl, exit_step_pos_eq cfg row cash _ p2 h⟩

theorem entry_phase_pos (cfg : Config) (hasF : Bool) (df : List Bar)
    (i : Nat) (row : Bar) (cash : ℚ) (pos : Option Position) (c : Counters)
    (q : Position)
    (h : (entry_phase cfg hasF df i row cash pos c).pos = some q) :
    (pos = none ∧ (entry_step cfg hasF df i row cash c).pos = some q) ∨
    pos = some q := by
  cases pos with
  | none => exact Or.inl ⟨rfl, h⟩
  | some p => exact Or.inr h

theorem tighten_phase_pos (cfg : Config) (i : Nat) (row : Bar)
    (prev? : Option Bar) (pos : Option Position) (c : Counters) (q : Position)
    (h : (tighten_phase cfg i row prev? pos c).1 = some q) :
    ∃ p, pos = some p ∧ q = (tighten_step cfg i row prev? p c).1 := by
  cases pos with
  | none => simp [tighten_phase] at h
  | some p => exact ⟨p, rfl, (Option.some.inj h).symm⟩

theorem tighten_phase_counters (cfg : Config) (i : Nat) (row : Bar)
    (prev? : Option Bar) (pos : Option Position) (c : Counters) :
    (tighten_phase cfg i row prev? pos c).2.entries_total = c.entries_total ∧
    (tighten_phase cfg i row prev? pos c).2.candidates_long = c.candidates_long ∧
    (tighten_phase cfg i row prev? pos c).2.candidates_short = c.candidates_short := by
  cases pos with
  | none => exact ⟨rfl, rfl, rfl⟩
  | some p =>
    obtain ⟨t1, -, -, t4, t5⟩ := tighten_step_counters cfg i row prev? p c
    exact ⟨t1, t4, t5⟩

theorem exit_counter_entries (pos : Option Position) (tr : Option Trade)
    (c : Counters) :
    (exit_counter pos tr c).entries_total = c.entries_total ∧
    (exit_counter pos tr c).candidates_long = c.candidates_long ∧
    (exit_counter pos tr c).candidates_short = c.candidates_short := by
  unfold exit_counter
  cases tr <;> cases pos <;> dsimp only <;> try exact ⟨rfl, rfl, rfl⟩
  split_ifs <;> exact ⟨rfl, rfl, rfl⟩

theorem entry_phase_entries_le (cfg : Config) (hasF : Bool) (df : List Bar)
    (i : Nat) (row : Bar) (cash : ℚ) (pos : Option Position) (c : Counters) :
    (entry_phase cfg hasF df i row cash pos c).counters.entries_total ≤
      c.entries_total + 1 := by
  cases pos with
  | none => exact entry_step_entries_le cfg hasF df i row cash c
  | some p => exact Nat.le_succ _

theorem process_bar_position (cfg : Config) (hasF : Bool) (df : List Bar)
    (i : Nat) (row : Bar) (s : EngState) :
    (process_bar cfg hasF df i row s).position =
      (tighten_phase cfg i row (prev_bar df i)
        (entry_phase cfg hasF df i row
          (exit_phase cfg (prev_bar df i) row s.cash s.position).cash
          (exit_phase cfg (prev_bar df i) row s.cash s.position).pos
          (exit_counter s.position
            (exit_phase cfg (prev_bar df i) row s.cash s.position).trade
            (bar_diag cfg hasF df i row s.counters))).pos
        (entry_phase cfg hasF df i row
          (exit_phase cfg (prev_bar df i) row s.cash s.position).cash
          (exit_phase cfg (prev_bar df i) row s.cash s.position).pos
          (exit_counter s.position
            (exit_phase cfg (prev_bar df i) row s.cash s.position).trade
            (bar_diag cfg hasF df i row s.counters))).counters).1 := rfl

theorem process_bar_counters (cfg : Config) (hasF : Bool) (df : List Bar)
    (i : Nat) (row : Bar) (s : EngState) :
    (process_bar cfg hasF df i row s).counters =
      (tighten_phase cfg i row (prev_bar df i)
        (entry_phase cfg hasF df i row
          (exit_phase cfg (prev_bar df i) row s.cash s.position).cash
          (exit_phase cfg (prev_bar df i) row s.cash s.position).pos
          (exit_counter s.position
            (exit_phase cfg (prev_bar df i) row s.cash s.position).trade
            (bar_diag cfg hasF df i row s.counters))).pos
        (entry_phase cfg hasF df i row
          (exit_phase cfg (prev_bar df i) row s.cash s.position).cash
          (exit_phase cfg (prev_bar df i) row s.cash s.position).pos
          (exit_counter s.position
            (exit_phase cfg (prev_bar df i) row s.cash s.position).trade
            (bar_diag cfg hasF df i row s.counters))).counters).2 := rfl

theorem process_bar_no_hit (cfg : Config) (hasF : Bool) (df : List Bar)
    (i : Nat) (row : Bar) (s : EngState) (p : Position)
    (hpos : s.position = some p)
    (hno : stop_hit row (pos_update cfg (prev_bar df i) p) = false) :
    (process_bar cfg hasF df i row s).position =
      some (tighten_step cfg i row (prev_bar df i)
        (pos_update cfg (prev_bar df i) p)
        (bar_diag cfg hasF df i row s.counters)).1 ∧
    (process_bar cfg hasF df i row s).counters =
      (tighten_step cfg i row (prev_bar df i)
        (pos_update cfg (prev_bar df i) p)
        (bar_diag cfg hasF df i row s.counters)).2 ∧
    (process_bar cfg hasF df i row s).trades = s.trades := by
  refine ⟨?_, ?_, ?_⟩ <;>
    simp only [process_bar, bar_out, hpos, exit_phase, exit_step, hno,
      Bool.false_eq_true, if_false, exit_counter, entry_phase, tighten_phase]

theorem process_bar_good_pending (cfg : Config) (hasF : Bool) (df : List Bar)
    (i : Nat) (row : Bar) (s : EngState) :
    ∀ q, (process_bar cfg hasF df i row s).position = some q →
      good_pending q := by
  intro q hq
  rw [process_bar_position] at hq
  obtain ⟨p2, hp2, rfl⟩ := tighten_phase_pos _ _ _ _ _ _ _ hq
  apply tighten_step_good
  rcases entry_phase_pos _ _ _ _ _ _ _ _ _ hp2 with ⟨-, hen⟩ | hex
  · exact good_pending_of_none _ (entry_step_pos_basic _ _ _ _ _ _ _ _ hen).1
  · obtain ⟨p0, -, rfl⟩ := exit_phase_pos _ _ _ _ _ _ hex
    exact good_pending_of_none _ (pos_update_pending _ _ _)

theorem run_from_inv (cfg : Config) (hasF : Bool) (df : List Bar)
    (flag : Nat → Bool) :
    ∀ (fuel i : Nat) (s : EngState),
      inv_state s → inv_state (run_from cfg hasF df flag fuel i s) := by
  intro fuel
  induction fuel with
  | zero => intro i s hs; exact hs
  | succ n ih =>
    intro i s hs
    simp only [run_from, List.get?_eq_getElem?]
    cases h : df[i]? with
    | none => exact hs
    | some row =>
      by_cases hf : flag i
      · simp only [if_pos hf]; exact hs
      · simp only [if_neg hf]
        exact ih (i + 1) _ (fun q hq => process_bar_good_pending cfg hasF df i row s q hq)

/-! ### Claim C1: one position, one entry per bar, long before short -/

/-- C1: at most one position is ever open (the engine state holds an
`Option Position`); at most one entry occurs per bar (`entries_total` grows
by at most one across a bar); while an open position survives the stop check
no entry occurs on that bar (the entry counters — totals and both candidate
tallies — are unchanged and the position stays open); an executed long entry
suppresses the short check entirely, including its candidate tally; and the
long attempt has priority: whenever its conditions hold the bar's entry is
the long one. -/
theorem C1_single_entry :
    (∀ (cfg : Config) (hasF : Bool) (df : List Bar) (i : Nat) (row : Bar)
        (s : EngState),
      (process_bar cfg hasF df i row s).counters.entries_total ≤
        s.counters.entries_total + 1) ∧
    (∀ (cfg : Config) (hasF : Bool) (df : List Bar) (i : Nat) (row : Bar)
        (s : EngState) (p : Position), s.position = some p →
      stop_hit row (pos_update cfg (prev_bar df i) p) = false →
      (process_bar cfg hasF df i row s).position.isSome = true ∧
      (process_bar cfg hasF df i row s).counters.entries_total =
        s.counters.entries_total ∧
      (process_bar cfg hasF df i row s).counters.candidates_long =
        s.counters.candidates_long ∧
      (process_bar cfg hasF df i row s).counters.candidates_short =
        s.counters.candidates_short) ∧
    (∀ (cfg : Config) (hasF : Bool) (df : List Bar) (i : Nat) (row : Bar)
        (cash : ℚ) (c : Counters) (p : Position),
      (entry_step cfg hasF df i row cash c).pos = some p → p.side = "LONG" →
      (entry_step cfg hasF df i row cash c).counters.candidates_short =
        c.candidates_short ∧
      (entry_step cfg hasF df i row cash c).counters.entries_short =
        c.entries_short) ∧
    (∀ (cfg : Config) (hasF : Bool) (df : List Bar) (i : Nat) (row : Bar)
        (cash : ℚ) (c : Counters),
      row.long_signal = true → (allow_long cfg && !range_filter row) = true →
      0 < (long_entry_calc cfg df i row cash).2.2 →
      (entry_step cfg hasF df i row cash c).pos =
        some { side := "LONG",
               entry_price := (long_entry_calc cfg df i row cash).1,
               qty := (long_entry_calc cfg df i row cash).2.2,
               stop_price := (long_entry_calc cfg df i row cash).2.1,
               entry_time := row.open_time }) := by
  refine ⟨?_, ?_, ?_, ?_⟩
  · intro cfg hasF df i row s
    rw [process_bar_counters]
    rw [(tighten_phase_counters _ _ _ _ _ _).1]
    calc (entry_phase cfg hasF df i row _ _ _).counters.entries_total
        ≤ (exit_counter s.position _ (bar_diag cfg hasF df i row s.counters)).entries_total + 1 :=
          entry_phase_entries_le _ _ _ _ _ _ _ _
      _ = (bar_diag cfg hasF df i row s.counters).entries_total + 1 := by
          rw [(exit_counter_entries _ _ _).1]
      _ = s.counters.entries_total + 1 := by
          rw [(bar_diag_entries _ _ _ _ _ _).1]
  · intro cfg hasF df i row s p hpos hno
    obtain ⟨hp1, hp2, -⟩ := process_bar_no_hit cfg hasF df i row s p hpos hno
    obtain ⟨t1, -, -, t4, t5⟩ := tighten_step_counters cfg i row (prev_bar df i)
      (pos_update cfg (prev_bar df i) p) (bar_diag cfg hasF df i row s.counters)
    obtain ⟨d1, -, -, d4, d5⟩ := bar_diag_entries cfg hasF df i row s.counters
    refine ⟨by rw [hp1]; rfl, ?_, ?_, ?_⟩ <;> rw [hp2]
    · rw [t1, d1]
    · rw [t4, d4]
    · rw [t5, d5]
  · intro cfg hasF df i row cash c p h hLside
    rcases entry_step_pos_cases cfg hasF df i row cash c p h with hl | ⟨-, hs⟩
    · have heq : entry_step cfg hasF df i row cash c =
          long_attempt cfg df i row cash c := by
        simp only [entry_step, hl]
      rw [heq]
      exact ⟨(long_attempt_counters cfg df i row cash c).2.2.1,
        (long_attempt_counters cfg df i row cash c).2.2.2⟩
    · obtain ⟨rfl, -⟩ := short_attempt_pos_eq cfg hasF df i row cash _ p hs
      simp at hLside
  · intro cfg hasF df i row cash c hsig hallow hq
    have hl : (long_attempt cfg df i row cash c).pos =
        some { side := "LONG",
               entry_price := (long_entry_calc cfg df i row cash).1,
               qty := (long_entry_calc cfg df i row cash).2.2,
               stop_price := (long_entry_calc cfg df i row cash).2.1,
               entry_time := row.open_time } := by
      simp only [long_attempt, hsig, hallow, if_true, if_pos hq]
    have heq : (entry_step cfg hasF df i row cash c).pos =
        (long_attempt cfg df i row cash c).pos := by
      simp only [entry_step, hl]
    rw [heq, hl]

/-- Witness for C1: with a position open that survives the stop check, the
bar records no entry and the position stays open. -/
theorem C1_witness :
    (process_bar wCfg false [wBar0] 0 wBar0 wState).counters.entries_total =
      wState.counters.entries_total :=
  (C1_single_entry.2.1 wCfg false [wBar0] 0 wBar0 wState wPosL rfl
    (by decide)).2.1

/-! ### Claim C2: the stop never moves against the position -/

theorem process_bar_survive (cfg : Config) (hasF : Bool) (df : List Bar)
    (i : Nat) (row : Bar) (s : EngState) (p : Position)
    (hpos : s.position = some p) (hg : good_pending p)
    (hno : stop_hit row (pos_update cfg (prev_bar df i) p) = false) :
    (process_bar cfg hasF df i row s).position.isSome = true ∧
    ∀ q, (process_bar cfg hasF df i row s).position = some q →
      q.side = p.side ∧
      (p.side = "LONG" → p.stop_price ≤ q.stop_price) ∧
      (p.side ≠ "LONG" → q.stop_price ≤ p.stop_price) ∧
      good_pending q := by
  obtain ⟨hp1, -, -⟩ := process_bar_no_hit cfg hasF df i row s p hpos hno
  refine ⟨by rw [hp1]; rfl, ?_⟩
  intro q hq
  rw [hp1] at hq
  obtain rfl := (Option.some.inj hq).symm
  obtain ⟨t1, t2, -, -, -, -⟩ := tighten_step_pos_core cfg i row (prev_bar df i)
    (pos_update cfg (prev_bar df i) p) (bar_diag cfg hasF df i row s.counters)
  obtain ⟨u1, -, -, -, -, -⟩ := pos_update_core cfg (prev_bar df i) p
  obtain ⟨m1, m2⟩ := pos_update_stop cfg (prev_bar df i) p hg
  refine ⟨t1.trans u1, ?_, ?_, ?_⟩
  · intro hl
    rw [t2]
    exact m1 hl
  · intro hn
    rw [t2]
    exact m2 hn
  · apply tighten_step_good
    exact good_pending_of_none _ (pos_update_pending _ _ _)

/-- C2: every position the engine ever holds has a favorable pending stop
(commitment can never loosen the stop), this invariant is preserved by every
bar and the whole loop, and while a position survives a bar its stop price
only moves favorably — non-decreasing for LONG, non-increasing for the
non-LONG (SHORT) side — because the trailing update adopts its candidate
only when it improves the stop, and the tighten staging stores
`max`/`min` of candidate and current stop. -/
theorem C2_stop_monotone :
    (∀ (cfg : Config) (hasF : Bool) (df : List Bar) (i : Nat) (row : Bar)
        (s : EngState) (q : Position),
      (process_bar cfg hasF df i row s).position = some q → good_pending q) ∧
    (∀ (cfg : Config) (hasF : Bool) (df : List Bar) (flag : Nat → Bool)
        (fuel i : Nat) (s : EngState),
      inv_state s → inv_state (run_from cfg hasF df flag fuel i s)) ∧
    (∀ (cfg : Config) (hasF : Bool) (df : List Bar) (i : Nat) (row : Bar)
        (s : EngState) (p : Position),
      s.position = some p → good_pending p →
      stop_hit row (pos_update cfg (prev_bar df i) p) = false →
      (process_bar cfg hasF df i row s).position.isSome = true ∧
      ∀ q, (process_bar cfg hasF df i row s).position = some q →
        q.side = p.side ∧
        (p.side = "LONG" → p.stop_price ≤ q.stop_price) ∧
        (p.side ≠ "LONG" → q.stop_price ≤ p.stop_price) ∧
        good_pending q) :=
  ⟨fun cfg hasF df i row s q hq => process_bar_good_pending cfg hasF df i row s q hq,
   fun cfg hasF df flag fuel i s hs => run_from_inv cfg hasF df flag fuel i s hs,
   fun cfg hasF df i row s p hpos hg hno =>
     process_bar_survive cfg hasF df i row s p hpos hg hno⟩

/-- Witness for C2: a surviving position stays open across the bar. -/
theorem C2_witness :
    (process_bar wCfg false [wBar0] 0 wBar0 wState).position.isSome = true :=
  (C2_stop_monotone.2.2 wCfg false [wBar0] 0 wBar0 wState wPosL rfl
    (by simp [good_pending, wPosL]) (by decide)).1

/-! ### Claim C8: every trade is well-formed -/

theorem mono_times_pair (b0 b1 : Bar) (h : b0.open_time < b1.open_time) :
    mono_times [b0, b1] := by
  intro j k bj bk hj hk hjk
  have hj2 : j < 2 := by
    by_contra hge
    rw [List.get?_eq_none.mpr (by simpa using Nat.le_of_not_lt hge)] at hj
    exact Option.noConfusion hj
  have hk2 : k < 2 := by
    by_contra hge
    rw [List.get?_eq_none.mpr (by simpa using Nat.le_of_not_lt hge)] at hk
    exact Option.noConfusion hk
  interval_cases j <;> interval_cases k <;> simp_all <;> omega

theorem exit_step_trade_fields (cfg : Config) (row : Bar) (cash : ℚ)
    (p : Position) (t : Trade)
    (h : (exit_step cfg row cash p).trade = some t) :
    t.qty = p.qty ∧ t.entry_time = p.entry_time ∧
    t.exit_time = row.open_time ∧ t.hold_bars = p.hold_bars := by
  unfold exit_step at h
  split_ifs at h
  all_goals
    obtain rfl := Option.some.inj h
    exact ⟨rfl, rfl, rfl, rfl⟩

theorem entry_step_pos_wf (cfg : Config) (hasF : Bool) (df : List Bar)
    (i : Nat) (row : Bar) (cash : ℚ) (c : Counters) (p : Position)
    (h : (entry_step cfg hasF df i row cash c).pos = some p) :
    0 < p.qty ∧ p.entry_time = row.open_time := by
  rcases entry_step_pos_cases cfg hasF df i row cash c p h with hl | ⟨-, hs⟩
  · obtain ⟨rfl, hq⟩ := long_attempt_pos_eq cfg df i row cash c p hl
    exact ⟨hq, rfl⟩
  · obtain ⟨rfl, hq⟩ := short_attempt_pos_eq cfg hasF df i row cash _ p hs
    exact ⟨hq, rfl⟩

theorem process_bar_pos_wf (cfg : Config) (hasF : Bool) (df : List Bar)
    (i : Nat) (row : Bar) (s : EngState)
    (hrow : df.get? i = some row) (hpos : pos_wf df i s) :
    pos_wf df (i + 1) (process_bar cfg hasF df i row s) := by
  intro q hq
  rw [process_bar_position] at hq
  obtain ⟨p2, hp2, rfl⟩ := tighten_phase_pos _ _ _ _ _ _ _ hq
  obtain ⟨-, -, t3, -, t5, -⟩ := tighten_step_pos_core cfg i row (prev_bar df i) p2 _
  rcases entry_phase_pos _ _ _ _ _ _ _ _ _ hp2 with ⟨-, hen⟩ | hex
  · obtain ⟨hq0, ht0⟩ := entry_step_pos_wf _ _ _ _ _ _ _ _ hen
    exact ⟨by rw [t3]; exact hq0,
      ⟨i, row, Nat.lt_succ_self i, hrow, by rw [t5, ht0]⟩⟩
  · obtain ⟨p0, hp0, rfl⟩ := exit_phase_pos _ _ _ _ _ _ hex
    obtain ⟨hq0, j, b, hj, hb, he⟩ := hpos p0 hp0
    obtain ⟨-, u2, -, u4, -, -⟩ := pos_update_core cfg (prev_bar df i) p0
    exact ⟨by rw [t3, u2]; exact hq0,
      ⟨j, b, Nat.lt_succ_of_lt hj, hb, by rw [t5, u4]; exact he⟩⟩

theorem process_bar_trades_wf (cfg : Config) (hasF : Bool) (df : List Bar)
    (i : Nat) (row : Bar) (s : EngState)
    (hmono : mono_times df) (hrow : df.get? i = some row)
    (hpos : pos_wf df i s) (htr : trades_wf s) :
    trades_wf (process_bar cfg hasF df i row s) := by
  intro t ht
  rw [process_bar_trades] at ht
  rcases List.mem_append.mp ht with h1 | h2
  · exact htr t h1
  · have h3 : (bar_out cfg hasF df i row s.cash s.position s.counters).trade = some t := by
      simpa [Option.mem_toList, Option.mem_def] using h2
    obtain ⟨p0, hp0, hex⟩ := bar_out_trade cfg hasF df i row s.cash s.position
      s.counters t h3
    obtain ⟨f1, f2, f3, f4⟩ := exit_step_trade_fields _ _ _ _ _ hex
    obtain ⟨hq0, j, b, hj, hb, he⟩ := hpos p0 hp0
    obtain ⟨-, u2, -, u4, u5, -⟩ := pos_update_core cfg (prev_bar df i) p0
    refine ⟨?_, ?_, ?_⟩
    · rw [f2, u4, he, f3]
      exact hmono j i b row hb hrow hj
    · rw [f1, u2]
      exact hq0
    · rw [f4, u5]
      omega

theorem run_from_wf (cfg : Config) (hasF : Bool) (df : List Bar)
    (flag : Nat → Bool) (hmono : mono_times df) :
    ∀ (fuel i : Nat) (s : EngState),
      pos_wf df i s → trades_wf s →
      trades_wf (run_from cfg hasF df flag fuel i s) := by
  intro fuel
  induction fuel with
  | zero => intro i s _ htr; exact htr
  | succ n ih =>
    intro i s hpos htr
    simp only [run_from, List.get?_eq_getElem?]
    cases h : df[i]? with
    | none => exact htr
    | some row =>
      by_cases hf : flag i
      · simp only [if_pos hf]; exact htr
      · simp only [if_neg hf]
        have hrow : df.get? i = some row := by
          rw [List.get?_eq_getElem?]; exact h
        exact ih (i + 1) _ (process_bar_pos_wf cfg hasF df i row s hrow hpos)
          (process_bar_trades_wf cfg hasF df i row s hmono hrow hpos htr)

/-- C8: one bar preserves the position/trade well-formedness invariants, and
over a whole run with strictly increasing `open_time` every recorded trade
has `exit_time` strictly greater than `entry_time` (an entered position can
be stopped out at the earliest on the following bar), strictly positive
quantity, and `hold_bars ≥ 1`. -/
theorem C8_trade_fields :
    (∀ (cfg : Config) (hasF : Bool) (df : List Bar) (i : Nat) (row : Bar)
        (s : EngState), mono_times df → df.get? i = some row →
      pos_wf df i s → trades_wf s →
      pos_wf df (i + 1) (process_bar cfg hasF df i row s) ∧
      trades_wf (process_bar cfg hasF df i row s)) ∧
    (∀ (cfg : Config) (hasF : Bool) (raw : List Bar) (flag : Nat → Bool),
      mono_times (build_frame raw) →
      ∀ t ∈ (run_backtest cfg hasF raw flag).trades,
        t.entry_time < t.exit_time ∧ 0 < t.qty ∧ 1 ≤ t.hold_bars) := by
  refine ⟨?_, ?_⟩
  · intro cfg hasF df i row s hmono hrow hpos htr
    exact ⟨process_bar_pos_wf cfg hasF df i row s hrow hpos,
      process_bar_trades_wf cfg hasF df i row s hmono hrow hpos htr⟩
  · intro cfg hasF raw flag hmono t ht
    by_cases hemp : (build_frame raw).isEmpty
    · simp [run_backtest, hemp] at ht
    · have hne : (build_frame raw).isEmpty = false := by simpa using hemp
      simp [run_backtest, hne] at ht
      exact run_from_wf cfg hasF (build_frame raw) flag hmono _ 0
        (init_state cfg)
        (by intro p hp; simp [init_state] at hp)
        (by intro t' ht'; simp [init_state] at ht') t ht

/-- Witness for C8: one bar of the two-bar fixture preserves both
well-formedness invariants. -/
theorem C8_witness :
    pos_wf [wBar0, wBar1] 2 (process_bar wCfg false [wBar0, wBar1] 1 wBar1 wState8) ∧
    trades_wf (process_bar wCfg false [wBar0, wBar1] 1 wBar1 wState8) :=
  C8_trade_fields.1 wCfg false [wBar0, wBar1] 1 wBar1 wState8
    (mono_times_pair wBar0 wBar1 (by norm_num [wBar0, wBar1]))
    rfl
    (by
      intro p hp
      obtain rfl := Option.some.inj hp
      exact ⟨by norm_num [wEntryPos], 0, wBar0, by omega, rfl, rfl⟩)
    (by intro t ht; simp [wState8] at ht)

/-- Witness for C10: the concrete long entry on `wSig0` has its stop strictly
below its entry price. -/
theorem C10_witness : wEntryPos.stop_price < wEntryPos.entry_price :=
  (C10_initial_stop_side wCfg false [wSig0] 0 wSig0 10000 init_counters rfl
    (by norm_num [wCfg]) (by norm_num [wSig0, wBar0])
    (by norm_num [wCfg]) (by norm_num [wSig0, wBar0])
    (by norm_num [wSig0, wBar0]) (by norm_num [wSig0, wBar0])
    wEntryPos
    (by norm_num [entry_step, long_attempt, long_entry_calc, allow_long,
      range_filter, calculate_position_size, recent_low, entry_window,
      wSig0, wBar0, wCfg, wEntryPos])).1 rfl

end BT
